import Mathlib

/-!
# Zoho Desk client (`zoho.go`): a shallow embedding

The Go package `zoho` is a set of call-and-parse wrappers around the Zoho Desk
REST API.  Each exported function builds one HTTP request, hands it to
`http.Client.Do`, reads the response body and decodes it with `json.Unmarshal`.

The embedding has three layers.

* `encoding/json` as far as the package uses it: the byte-at-a-time scanner
  (`checkValid`), string unquoting, struct-field lookup with case folding, the
  decoding of strings, ints, bools, slices and structs, and `json.Marshal` of a
  `map[string]string`.
* `net/http` as far as the package uses it: `http.NewRequest` (which fails when
  `url.Parse` rejects the URL and then returns a nil request),
  `Header.Add`, and `Client.Do` followed by `ioutil.ReadAll`.  The network is a
  parameter `Env`.
* the eight functions of `zoho.go`, statement by statement.

Go strings that are only concatenated, compared or sent as they are (URLs,
tokens, header values, response bodies) are modelled as Lean `String`s.  The
strings that `json.Marshal` encodes are modelled as byte sequences (`GoString`),
because `json.Marshal` treats bytes that are not valid UTF-8 differently.  Go's
`int` is the 64-bit one.
-/

namespace Zoho

/-! ## JSON values and the scanner of `encoding/json` -/

/-- A JSON document as `encoding/json` sees it after scanning.  Numbers keep
their literal text, strings and object keys are already unquoted, object members
keep their order and their duplicates. -/
inductive Json where
  | null
  | bool (b : Bool)
  | num (lit : String)
  | str (s : String)
  | arr (xs : List Json)
  | obj (ms : List (String × Json))

/-- One entry of the scanner's `parseState` stack together with what has been
built so far (most recent first).  `obj ms none` is `parseObjectValue` after a
complete member (or `parseObjectKey` before the key); `obj ms (some k)` carries
the key `k` whose value is awaited. -/
inductive Frame where
  | arr (xs : List Json)
  | obj (ms : List (String × Json)) (key : Option String)

/-- The scanner's `step` function, with the text collected so far.  String
modes hold the unquoted characters (most recent first) and a pending UTF-16 high
surrogate from a `\u` escape; number modes hold the literal (most recent
first). -/
inductive Mode where
  | beginValue
  | beginValueOrEmpty
  | beginStringOrEmpty
  | beginString
  | inString (acc : List Char) (pending : Option Nat)
  | inStringEsc (acc : List Char) (pending : Option Nat)
  | inStringEscU (acc : List Char) (pending : Option Nat) (count : Nat) (val : Nat)
  | neg (lit : List Char)
  | zero (lit : List Char)
  | one (lit : List Char)
  | dot (lit : List Char)
  | dot0 (lit : List Char)
  | e (lit : List Char)
  | eSign (lit : List Char)
  | e0 (lit : List Char)
  | literal (rest : List Char) (v : Json)
  | endValue
  | endTop (v : Json)

/-- Scanner state: the current step function and the `parseState` stack. -/
structure Scanner where
  mode : Mode
  stack : List Frame

/-- The limit of `scanner.pushParseState`. -/
def maxNestingDepth : Nat := 10000

/-- The scanner's `isSpace`. -/
def isSpace (c : Char) : Bool :=
  c.toNat ≤ 0x20 && (c.toNat = 0x20 || c.toNat = 0x09 || c.toNat = 0x0d || c.toNat = 0x0a)

/-- Decimal digit test. -/
def isDigit (c : Char) : Bool := 0x30 ≤ c.toNat && c.toNat ≤ 0x39

/-- Value of a hexadecimal digit as `getu4` reads it. -/
def hexVal (c : Char) : Option Nat :=
  let n := c.toNat
  if 0x30 ≤ n && n ≤ 0x39 then some (n - 0x30)
  else if 0x61 ≤ n && n ≤ 0x66 then some (n - 0x61 + 10)
  else if 0x41 ≤ n && n ≤ 0x46 then some (n - 0x41 + 10)
  else none

/-- The replacement character U+FFFD. -/
def replacementChar : Char := Char.ofNat 0xFFFD

/-- Characters produced so far once a pending lone surrogate is given up: it
becomes U+FFFD. -/
def flush (acc : List Char) (pending : Option Nat) : List Char :=
  match pending with
  | none => acc
  | some _ => replacementChar :: acc

/-- The effect of one complete `\uXXXX` escape of value `r` in `unquote`:
a high surrogate waits for its partner, a matching low surrogate completes the
pair (`utf16.DecodeRune`), any other surrogate becomes U+FFFD. -/
def escapeRune (acc : List Char) (pending : Option Nat) (r : Nat) : List Char × Option Nat :=
  if 0xDC00 ≤ r && r < 0xE000 then
    match pending with
    | some hi => (Char.ofNat ((hi - 0xD800) * 0x400 + (r - 0xDC00) + 0x10000) :: acc, none)
    | none => (replacementChar :: acc, none)
  else if 0xD800 ≤ r && r < 0xDC00 then
    (flush acc pending, some r)
  else
    (Char.ofNat r :: flush acc pending, none)

/-- A value is complete: it becomes the document, the next array element, the
value of the awaited key, or (a string after `{` or `,`) the next key. -/
def complete (v : Json) : List Frame → Option Scanner
  | [] => some ⟨.endTop v, []⟩
  | .arr xs :: st => some ⟨.endValue, .arr (v :: xs) :: st⟩
  | .obj ms (some k) :: st => some ⟨.endValue, .obj ((k, v) :: ms) none :: st⟩
  | .obj ms none :: st =>
    match v with
    | .str s => some ⟨.endValue, .obj ms (some s) :: st⟩
    | _ => none

/-- Pushing onto `parseState`, refused beyond `maxNestingDepth`. -/
def push (m : Mode) (f : Frame) (st : List Frame) : Option Scanner :=
  if st.length + 1 ≤ maxNestingDepth then some ⟨m, f :: st⟩ else none

/-- Scanner step `stateBeginValue`. -/
def stepBeginValue (st : List Frame) (c : Char) : Option Scanner :=
  if isSpace c then some ⟨.beginValue, st⟩
  else if c = '{' then push .beginStringOrEmpty (.obj [] none) st
  else if c = '[' then push .beginValueOrEmpty (.arr []) st
  else if c = '"' then some ⟨.inString [] none, st⟩
  else if c = '-' then some ⟨.neg [c], st⟩
  else if c = '0' then some ⟨.zero [c], st⟩
  else if c = 't' then some ⟨.literal ['r', 'u', 'e'] (.bool true), st⟩
  else if c = 'f' then some ⟨.literal ['a', 'l', 's', 'e'] (.bool false), st⟩
  else if c = 'n' then some ⟨.literal ['u', 'l', 'l'] .null, st⟩
  else if isDigit c then some ⟨.one [c], st⟩
  else none

/-- Scanner steps `stateEndValue` and `stateEndTop`. -/
def stepEnd (s : Scanner) (c : Char) : Option Scanner :=
  match s.mode with
  | .endTop v => if isSpace c then some ⟨.endTop v, s.stack⟩ else none
  | .endValue =>
    if isSpace c then some s
    else
      match s.stack with
      | [] => none
      | .obj ms (some k) :: st =>
        if c = ':' then some ⟨.beginValue, .obj ms (some k) :: st⟩ else none
      | .obj ms none :: st =>
        if c = ',' then some ⟨.beginString, .obj ms none :: st⟩
        else if c = '}' then complete (.obj ms.reverse) st
        else none
      | .arr xs :: st =>
        if c = ',' then some ⟨.beginValue, .arr xs :: st⟩
        else if c = ']' then complete (.arr xs.reverse) st
        else none
  | _ => none

/-- A number literal ends at `c`: the number is complete and `c` is scanned by
`stateEndValue`. -/
def endNumber (lit : List Char) (st : List Frame) (c : Char) : Option Scanner :=
  (complete (.num (String.mk lit.reverse)) st).bind fun s => stepEnd s c

/-- Scanner step `state0`, shared by `state1`. -/
def stepZero (lit : List Char) (st : List Frame) (c : Char) : Option Scanner :=
  if c = '.' then some ⟨.dot (c :: lit), st⟩
  else if c = 'e' || c = 'E' then some ⟨.e (c :: lit), st⟩
  else endNumber lit st c

/-- Scanner step `stateESign`, shared by `stateE`. -/
def stepESign (lit : List Char) (st : List Frame) (c : Char) : Option Scanner :=
  if isDigit c then some ⟨.e0 (c :: lit), st⟩ else none

/-- One step of the scanner on the next character; `none` is `scanError`. -/
def step (s : Scanner) (c : Char) : Option Scanner :=
  match s.mode with
  | .beginValue => stepBeginValue s.stack c
  | .beginValueOrEmpty =>
    if isSpace c then some s
    else if c = ']' then stepEnd ⟨.endValue, s.stack⟩ c
    else stepBeginValue s.stack c
  | .beginStringOrEmpty =>
    if isSpace c then some s
    else if c = '}' then stepEnd ⟨.endValue, s.stack⟩ c
    else if c = '"' then some ⟨.inString [] none, s.stack⟩
    else none
  | .beginString =>
    if isSpace c then some s
    else if c = '"' then some ⟨.inString [] none, s.stack⟩
    else none
  | .inString acc p =>
    if c = '"' then complete (.str (String.mk (flush acc p).reverse)) s.stack
    else if c = '\\' then some ⟨.inStringEsc acc p, s.stack⟩
    else if c.toNat < 0x20 then none
    else some ⟨.inString (c :: flush acc p) none, s.stack⟩
  | .inStringEsc acc p =>
    if c = 'b' then some ⟨.inString (Char.ofNat 0x08 :: flush acc p) none, s.stack⟩
    else if c = 'f' then some ⟨.inString (Char.ofNat 0x0c :: flush acc p) none, s.stack⟩
    else if c = 'n' then some ⟨.inString (Char.ofNat 0x0a :: flush acc p) none, s.stack⟩
    else if c = 'r' then some ⟨.inString (Char.ofNat 0x0d :: flush acc p) none, s.stack⟩
    else if c = 't' then some ⟨.inString (Char.ofNat 0x09 :: flush acc p) none, s.stack⟩
    else if c = '\\' || c = '/' || c = '"' then some ⟨.inString (c :: flush acc p) none, s.stack⟩
    else if c = 'u' then some ⟨.inStringEscU acc p 0 0, s.stack⟩
    else none
  | .inStringEscU acc p n v =>
    match hexVal c with
    | none => none
    | some d =>
      if n < 3 then some ⟨.inStringEscU acc p (n + 1) (v * 16 + d), s.stack⟩
      else
        let r := escapeRune acc p (v * 16 + d)
        some ⟨.inString r.1 r.2, s.stack⟩
  | .neg lit =>
    if c = '0' then some ⟨.zero (c :: lit), s.stack⟩
    else if isDigit c then some ⟨.one (c :: lit), s.stack⟩
    else none
  | .zero lit => stepZero lit s.stack c
  | .one lit =>
    if isDigit c then some ⟨.one (c :: lit), s.stack⟩ else stepZero lit s.stack c
  | .dot lit => if isDigit c then some ⟨.dot0 (c :: lit), s.stack⟩ else none
  | .dot0 lit =>
    if isDigit c then some ⟨.dot0 (c :: lit), s.stack⟩
    else if c = 'e' || c = 'E' then some ⟨.e (c :: lit), s.stack⟩
    else endNumber lit s.stack c
  | .e lit =>
    if c = '+' || c = '-' then some ⟨.eSign (c :: lit), s.stack⟩ else stepESign lit s.stack c
  | .eSign lit => stepESign lit s.stack c
  | .e0 lit =>
    if isDigit c then some ⟨.e0 (c :: lit), s.stack⟩ else endNumber lit s.stack c
  | .literal rest v =>
    match rest with
    | [] => none
    | [x] => if c = x then complete v s.stack else none
    | x :: y :: more => if c = x then some ⟨.literal (y :: more) v, s.stack⟩ else none
  | .endValue => stepEnd s c
  | .endTop v => stepEnd ⟨.endTop v, s.stack⟩ c

/-- Feeding the scanner a run of characters. -/
def scan : Scanner → List Char → Option Scanner
  | s, [] => some s
  | s, c :: cs => (step s c).bind fun s1 => scan s1 cs

/-- The scanner's `eof`: the input may stop after a complete top-level value
(a top-level number is ended by the end of input). -/
def eof (s : Scanner) : Option Json :=
  match (step s ' ') with
  | some ⟨.endTop v, _⟩ => some v
  | _ => none

/-- The document `json.Unmarshal` decodes, or `none` when `checkValid` reports a
syntax error (which includes the empty input). -/
def parseJSON (data : String) : Option Json :=
  (scan ⟨.beginValue, []⟩ data.toList).bind eof

/-! ## Decoding into Go values (`decodeState`) -/

/-- An `UnmarshalTypeError`; `Value` describes the JSON value that did not fit
("string", "number 1.5", "array", ...). -/
structure UnmarshalTypeError where
  Value : String
deriving DecidableEq

/-- The error slot `decodeState.savedError`. -/
abbrev Saved := Option UnmarshalTypeError

/-- The method `decodeState.saveError`: only the first error is kept, decoding
goes on. -/
def saveError (saved : Saved) (err : Saved) : Saved :=
  match saved with
  | some e => some e
  | none => err

/-- A decoder for a Go value of type `α`: the JSON value and the current
content of the destination give the new content and the error saved, if any. -/
abbrev Decoder (α : Type) := Json → α → α × Saved

/-- Go's `int` is 64 bits wide. -/
def intSize : Nat := 64

/-- Value of a run of decimal digits, `none` if another character occurs. -/
def parseDigits : List Char → Nat → Option Nat
  | [], n => some n
  | c :: cs, n => if isDigit c then parseDigits cs (n * 10 + (c.toNat - 0x30)) else none

/-- The call `strconv.ParseInt(s, 10, 64)` followed by `OverflowInt` on the
literal of a JSON number: an optional minus sign and digits only, within the
range of `int`. -/
def parseInt (lit : String) : Option Int :=
  match lit.toList with
  | [] => none
  | c :: cs =>
    if c = '-' then
      match cs with
      | [] => none
      | _ => (parseDigits cs 0).bind fun n =>
          if n ≤ 2 ^ (intSize - 1) then some (-(n : Int)) else none
    else
      (parseDigits (c :: cs) 0).bind fun n =>
        if n < 2 ^ (intSize - 1) then some (n : Int) else none

/-- Decoding into a `string`. -/
def decodeString : Decoder String
  | .null, v => (v, none)
  | .str s, _ => (s, none)
  | .bool _, v => (v, some ⟨"bool"⟩)
  | .num _, v => (v, some ⟨"number"⟩)
  | .arr _, v => (v, some ⟨"array"⟩)
  | .obj _, v => (v, some ⟨"object"⟩)

/-- Decoding into an `int`. -/
def decodeInt : Decoder Int
  | .null, v => (v, none)
  | .num lit, v =>
    match parseInt lit with
    | some n => (n, none)
    | none => (v, some ⟨"number " ++ lit⟩)
  | .bool _, v => (v, some ⟨"bool"⟩)
  | .str _, v => (v, some ⟨"string"⟩)
  | .arr _, v => (v, some ⟨"array"⟩)
  | .obj _, v => (v, some ⟨"object"⟩)

/-- Decoding into a `bool`. -/
def decodeBool : Decoder Bool
  | .null, v => (v, none)
  | .bool b, _ => (b, none)
  | .num _, v => (v, some ⟨"number"⟩)
  | .str _, v => (v, some ⟨"string"⟩)
  | .arr _, v => (v, some ⟨"array"⟩)
  | .obj _, v => (v, some ⟨"object"⟩)

/-- The elements of a JSON array decoded into a slice: element `i` is decoded
into the current element `i` of the slice when there is one and into a zero
value otherwise (elements that an earlier, longer decode left in the spare
capacity of the slice are not modelled; the functions of this package start
from nil slices). -/
def decodeElems {α : Type} (elem : Decoder α) (zero : α) : List Json → List α → List α × Saved
  | [], _ => ([], none)
  | j :: js, old =>
    let r := elem j (old.headD zero)
    let rest := decodeElems elem zero js old.tail
    (r.1 :: rest.1, saveError r.2 rest.2)

/-- Decoding into a slice (`decodeState.array`; `null` sets the slice to nil). -/
def decodeSlice {α : Type} (elem : Decoder α) (zero : α) : Decoder (List α)
  | .null, _ => ([], none)
  | .arr xs, v => decodeElems elem zero xs v
  | .bool _, v => (v, some ⟨"bool"⟩)
  | .num _, v => (v, some ⟨"number"⟩)
  | .str _, v => (v, some ⟨"string"⟩)
  | .obj _, v => (v, some ⟨"object"⟩)

/-- ASCII upper-casing and the two non-ASCII runes whose fold orbit contains an
ASCII letter (U+017F long s, U+212A Kelvin sign), as `foldName` maps them; every
other rune is left alone, which cannot make it equal to an ASCII letter. -/
def foldRune (c : Char) : Char :=
  if 0x61 ≤ c.toNat && c.toNat ≤ 0x7a then Char.ofNat (c.toNat - 0x20)
  else if c.toNat = 0x17F then 'S'
  else if c.toNat = 0x212A then 'K'
  else c

/-- The key under which `byFoldedName` files a field name. -/
def foldName (s : String) : String := String.mk (s.toList.map foldRune)

/-- Position of the first name equal to `x`. -/
def position (x : String) : List String → Option Nat
  | [] => none
  | n :: ns => if n = x then some 0 else (position x ns).map fun i => i + 1

/-- Field lookup of `decodeState.object`: the field with exactly this name,
else the first field whose folded name equals the folded key. -/
def fieldIndex (names : List String) (key : String) : Option Nat :=
  match position key names with
  | some i => some i
  | none => position (foldName key) (names.map foldName)

/-- The members of a JSON object decoded into a struct, in document order;
members whose key matches no field are skipped. -/
def decodeMembers {α : Type} (names : List String) (set : Nat → Decoder α) :
    List (String × Json) → α → α × Saved
  | [], v => (v, none)
  | (k, j) :: ms, v =>
    match fieldIndex names k with
    | none => decodeMembers names set ms v
    | some i =>
      let r := set i j v
      let rest := decodeMembers names set ms r.1
      (rest.1, saveError r.2 rest.2)

/-- Decoding into a struct with the given field names (`decodeState.object`);
`set i` decodes into field number `i`. -/
def decodeStruct {α : Type} (names : List String) (set : Nat → Decoder α) : Decoder α
  | .null, v => (v, none)
  | .obj ms, v => decodeMembers names set ms v
  | .bool _, v => (v, some ⟨"bool"⟩)
  | .num _, v => (v, some ⟨"number"⟩)
  | .str _, v => (v, some ⟨"string"⟩)
  | .arr _, v => (v, some ⟨"array"⟩)

/-- What `json.Unmarshal` returns as its error. -/
inductive JsonError where
  | malformed
  | type (e : UnmarshalTypeError)
deriving DecidableEq

/-- The call `json.Unmarshal(data, &v)`: a syntax error leaves `v` untouched;
otherwise `v` is decoded as far as possible and the first type error is
returned. -/
def Unmarshal {α : Type} (dec : Decoder α) (data : String) (v : α) : α × Option JsonError :=
  match parseJSON data with
  | none => (v, some .malformed)
  | some j =>
    let r := dec j v
    (r.1, r.2.map JsonError.type)

/-! ## Go strings as byte sequences -/

/-- The bytes of the UTF-8 encoding of a character. -/
def utf8Bytes (c : Char) : List Nat :=
  let n := c.toNat
  if n < 0x80 then [n]
  else if n < 0x800 then [0xC0 + n / 0x40, 0x80 + n % 0x40]
  else if n < 0x10000 then [0xE0 + n / 0x1000, 0x80 + n / 0x40 % 0x40, 0x80 + n % 0x40]
  else [0xF0 + n / 0x40000, 0x80 + n / 0x1000 % 0x40, 0x80 + n / 0x40 % 0x40, 0x80 + n % 0x40]

/-- A Go string as `json.Marshal` reads it: a sequence of bytes (numbers below
256), which need not be the UTF-8 encoding of a text. -/
structure GoString where
  bytes : List Nat
deriving DecidableEq

/-- The Go string that holds the UTF-8 encoding of a text. -/
def GoString.ofString (s : String) : GoString := ⟨s.toList.flatMap utf8Bytes⟩

instance : Coe String GoString := ⟨GoString.ofString⟩

/-- The function `utf8.DecodeRuneInString` at the byte `b0` followed by the
bytes `rest`: the rune and the number of bytes it takes, or `none` when the
answer is `RuneError` with width 1, that is when `b0` does not start a valid
encoding.  The ranges are those of the tables `first` and `acceptRanges`. -/
def decodeRune (b0 : Nat) (rest : List Nat) : Option (Char × Nat) :=
  if b0 < 0x80 then some (Char.ofNat b0, 1)
  else if b0 < 0xC2 then none
  else if b0 < 0xE0 then
    match rest with
    | b1 :: _ =>
      if 0x80 ≤ b1 && b1 ≤ 0xBF then
        some (Char.ofNat (b0 % 0x20 * 0x40 + b1 % 0x40), 2)
      else none
    | _ => none
  else if b0 < 0xF0 then
    match rest with
    | b1 :: b2 :: _ =>
      if (if b0 = 0xE0 then 0xA0 else 0x80) ≤ b1 && b1 ≤ (if b0 = 0xED then 0x9F else 0xBF)
          && 0x80 ≤ b2 && b2 ≤ 0xBF then
        some (Char.ofNat (b0 % 0x10 * 0x1000 + b1 % 0x40 * 0x40 + b2 % 0x40), 3)
      else none
    | _ => none
  else if b0 < 0xF5 then
    match rest with
    | b1 :: b2 :: b3 :: _ =>
      if (if b0 = 0xF0 then 0x90 else 0x80) ≤ b1 && b1 ≤ (if b0 = 0xF4 then 0x8F else 0xBF)
          && 0x80 ≤ b2 && b2 ≤ 0xBF && 0x80 ≤ b3 && b3 ≤ 0xBF then
        some (Char.ofNat (b0 % 0x08 * 0x40000 + b1 % 0x40 * 0x1000 + b2 % 0x40 * 0x40
          + b3 % 0x40), 4)
      else none
    | _ => none
  else none

/-- The runes of a Go string from a position on, as `[]rune(s)` and `range s`
yield them: every byte that does not start a valid encoding counts as U+FFFD.
`skip` is the number of bytes still to pass over, the rest of a rune already
read. -/
def runesFrom : Nat → List Nat → List Char
  | _, [] => []
  | skip + 1, _ :: rest => runesFrom skip rest
  | 0, b0 :: rest =>
    match decodeRune b0 rest with
    | some (c, size) => c :: runesFrom (size - 1) rest
    | none => Char.ofNat 0xFFFD :: runesFrom 0 rest

/-- The text `string([]rune(s))`: the Go string with every byte that is not part
of a valid UTF-8 encoding replaced by U+FFFD. -/
def GoString.runes (s : GoString) : String := String.mk (runesFrom 0 s.bytes)

/-! ## `json.Marshal` of a `map[string]string` -/

/-- The digits of `hex` in `encoding/json`. -/
def hexDigit (n : Nat) : Char :=
  if n < 10 then Char.ofNat (0x30 + n) else Char.ofNat (0x61 + (n - 10))

/-- How `appendString` (with HTML escaping, as `json.Marshal` sets it) writes
one rune of a string. -/
def encodeChar (c : Char) : List Char :=
  if c = '"' then ['\\', '"']
  else if c = '\\' then ['\\', '\\']
  else if c.toNat = 0x08 then ['\\', 'b']
  else if c.toNat = 0x0c then ['\\', 'f']
  else if c.toNat = 0x0a then ['\\', 'n']
  else if c.toNat = 0x0d then ['\\', 'r']
  else if c.toNat = 0x09 then ['\\', 't']
  else if c.toNat < 0x20 || c = '<' || c = '>' || c = '&' then
    ['\\', 'u', '0', '0', hexDigit (c.toNat / 16), hexDigit (c.toNat % 16)]
  else if c.toNat = 0x2028 || c.toNat = 0x2029 then
    ['\\', 'u', '2', '0', '2', hexDigit (c.toNat % 16)]
  else [c]

/-- The characters of a text between the quotes, as `appendString` writes
them. -/
def encodeChars : List Char → List Char
  | [] => []
  | c :: cs => encodeChar c ++ encodeChars cs

/-- A quoted JSON string for a text (the keys of the maps of this package). -/
def encodeString (s : String) : List Char :=
  '"' :: (encodeChars s.toList ++ ['"'])

/-- The loop of `appendString` over the bytes of a Go string: a rune is written
as `encodeChar` has it, a byte that does not start a valid encoding is written
as the six characters `\ufffd`.  `skip` is the number of bytes still to pass
over, the rest of a rune already written. -/
def encodeBytes : Nat → List Nat → List Char
  | _, [] => []
  | skip + 1, _ :: rest => encodeBytes skip rest
  | 0, b0 :: rest =>
    match decodeRune b0 rest with
    | some (c, size) => encodeChar c ++ encodeBytes (size - 1) rest
    | none => ['\\', 'u', 'f', 'f', 'f', 'd'] ++ encodeBytes 0 rest

/-- A quoted JSON string for a Go string (the values of the maps of this
package). -/
def encodeGoString (s : GoString) : List Char :=
  '"' :: (encodeBytes 0 s.bytes ++ ['"'])

/-- The members of an object, comma separated. -/
def encodeMembers : List (String × GoString) → List Char
  | [] => []
  | [(k, v)] => encodeString k ++ ':' :: encodeGoString v
  | (k, v) :: m :: ms =>
    encodeString k ++ ':' :: (encodeGoString v ++ ',' :: encodeMembers (m :: ms))

/-- Go's `<` on strings: byte-wise lexicographic order, which on UTF-8 text is
the lexicographic order of the code points. -/
def lessChars : List Char → List Char → Bool
  | _, [] => false
  | [], _ :: _ => true
  | a :: as, b :: bs =>
    if a.toNat < b.toNat then true
    else if b.toNat < a.toNat then false
    else lessChars as bs

/-- Go's `a < b` for strings. -/
def stringLess (a b : String) : Bool := lessChars a.toList b.toList

/-- Insertion of an entry into a key-sorted list of entries. -/
def insertEntry (e : String × GoString) :
    List (String × GoString) → List (String × GoString)
  | [] => [e]
  | x :: xs => if stringLess e.1 x.1 then e :: x :: xs else x :: insertEntry e xs

/-- The entries of a map in increasing key order, the order in which
`json.Marshal` writes a map. -/
def sortEntries : List (String × GoString) → List (String × GoString)
  | [] => []
  | e :: es => insertEntry e (sortEntries es)

/-- The call `json.Marshal(m)` for a `map[string]string` given by its entries
(with distinct keys, which are texts; the values are any Go strings).  What it
writes is always valid UTF-8. -/
def Marshal (m : List (String × GoString)) : String :=
  String.mk ('{' :: (encodeMembers (sortEntries m) ++ ['}']))

/-! ## `net/url` and `net/http` -/

/-- The digits of `upperhex` in `net/url`. -/
def upperHexDigit (n : Nat) : Char :=
  if n < 10 then Char.ofNat (0x30 + n) else Char.ofNat (0x41 + (n - 10))

/-- Bytes that `url.QueryEscape` leaves alone: letters, digits and `-_.~`. -/
def unreserved (n : Nat) : Bool :=
  (0x61 ≤ n && n ≤ 0x7a) || (0x41 ≤ n && n ≤ 0x5a) || (0x30 ≤ n && n ≤ 0x39)
    || n = 0x2d || n = 0x5f || n = 0x2e || n = 0x7e

/-- Escaping of one byte by `url.QueryEscape`. -/
def escapeByte (n : Nat) : List Char :=
  if unreserved n then [Char.ofNat n]
  else if n = 0x20 then ['+']
  else ['%', upperHexDigit (n / 16), upperHexDigit (n % 16)]

/-- The function `url.QueryEscape`. -/
def QueryEscape (s : String) : String :=
  String.mk ((s.toList.flatMap utf8Bytes).flatMap escapeByte)

/-- A `url.Values`: keys with their lists of values. -/
structure Values where
  entries : List (String × List String) := []

/-- The method `Values.Set`: the key gets exactly this value. -/
def Values.Set (vs : Values) (key value : String) : Values :=
  ⟨(vs.entries.filter fun kv => kv.1 ≠ key) ++ [(key, [value])]⟩

/-- The method `Values.Add`: the value is appended to those of the key. -/
def Values.Add (vs : Values) (key value : String) : Values :=
  if vs.entries.any (fun kv => kv.1 = key) then
    ⟨vs.entries.map fun kv => if kv.1 = key then (kv.1, kv.2 ++ [value]) else kv⟩
  else ⟨vs.entries ++ [(key, [value])]⟩

/-- Insertion of a key into its place among sorted keys. -/
def insertKey (e : String × List String) :
    List (String × List String) → List (String × List String)
  | [] => [e]
  | x :: xs => if stringLess e.1 x.1 then e :: x :: xs else x :: insertKey e xs

/-- The method `Values.Encode`: `key=value` pairs joined by `&`, sorted by
key, both sides escaped. -/
def Values.Encode (vs : Values) : String :=
  let sorted := vs.entries.foldr insertKey []
  let pairs := sorted.flatMap fun kv =>
    kv.2.map fun v => QueryEscape kv.1 ++ "=" ++ QueryEscape v
  "&".intercalate pairs

/-- An `http.Request` as far as this package fills it; `URL` is the raw URL
string the request was made from. -/
structure Request where
  Method : String
  URL : String
  Header : List (String × String)
  Body : Option String
deriving DecidableEq

/-- The outside world: `accepts` tells whether `url.Parse` accepts a URL that
holds no control byte before its fragment, `Do` is `http.Client.Do` followed by
`ioutil.ReadAll` on the response body: a transport error or the bytes read. -/
structure Env where
  accepts : String → Bool
  Do : Request → Except String String

/-- The function `stringContainsCTLByte` of `net/url`. -/
def stringContainsCTLByte (s : String) : Bool :=
  s.toList.any fun c => c.toNat < 0x20 || c.toNat = 0x7f

/-- The part of a raw URL before the first `#`. -/
def beforeFragment (s : String) : String :=
  String.mk (s.toList.takeWhile fun c => c ≠ '#')

/-- The function `http.NewRequest` for the methods GET, POST and PATCH: when
`url.Parse` rejects the URL there is an error and no request (`none`); a control
byte before the fragment is always rejected. -/
def NewRequest (env : Env) (method url : String) (body : Option String) : Option Request :=
  if stringContainsCTLByte (beforeFragment url) then none
  else if env.accepts url then some ⟨method, url, [], body⟩
  else none

/-- Whether `http.NewRequest` makes a request from this URL. -/
def Env.builds (env : Env) (url : String) : Bool :=
  !stringContainsCTLByte (beforeFragment url) && env.accepts url

/-- Bytes allowed in a header field name (`validHeaderFieldByte`). -/
def validHeaderFieldByte (n : Nat) : Bool :=
  (0x61 ≤ n && n ≤ 0x7a) || (0x41 ≤ n && n ≤ 0x5a) || (0x30 ≤ n && n ≤ 0x39)
    || [0x21, 0x23, 0x24, 0x25, 0x26, 0x27, 0x2a, 0x2b, 0x2d, 0x2e, 0x5e, 0x5f, 0x60, 0x7c, 0x7e].contains n

/-- The letter-case pass of `textproto.CanonicalMIMEHeaderKey`: a letter is
upper case at the start and after `-`, lower case elsewhere. -/
def canonicalChars : Bool → List Char → List Char
  | _, [] => []
  | upper, c :: cs =>
    let c1 :=
      if upper && 0x61 ≤ c.toNat && c.toNat ≤ 0x7a then Char.ofNat (c.toNat - 0x20)
      else if !upper && 0x41 ≤ c.toNat && c.toNat ≤ 0x5a then Char.ofNat (c.toNat + 0x20)
      else c
    c1 :: canonicalChars (c = '-') cs

/-- The function `textproto.CanonicalMIMEHeaderKey`. -/
def CanonicalMIMEHeaderKey (key : String) : String :=
  if key.toList.all (fun c => validHeaderFieldByte c.toNat) then
    String.mk (canonicalChars true key.toList)
  else key

/-- The method `Header.Add` on the request's header. -/
def Request.HeaderAdd (r : Request) (key value : String) : Request :=
  { r with Header := r.Header ++ [(CanonicalMIMEHeaderKey key, value)] }

/-! ## The data model of `zoho.go` -/

/-- Constants sent as parameters of the Zoho API calls. -/
structure Params where
  OauthAuthorizationRequestSlug : String := ""
  OauthGenerateTokenRequestSlug : String := ""
  OauthRevokeTokenRequestSlug : String := ""
  AthURL : String := ""
  Scope : String := ""
  AccessType : String := ""
  ResponseTypeCode : String := ""
  ClientID : String := ""
  ClientSecret : String := ""
  RedirectURI : String := ""
  GrantType : String := ""
  RefreshToken : String := ""
  RgrantType : String := ""
  Org : String := ""
deriving DecidableEq

/-- The OAuth token answer. -/
structure OAuthToken where
  Accesstoken : String := ""
  Tokentype : String := ""
  Expiresin : Int := 0
deriving DecidableEq

/-- JSON names of the fields of `OAuthToken`. -/
def OAuthToken.names : List String := ["access_token", "token_type", "expires_in"]

/-- Decoding into field `i` of an `OAuthToken`. -/
def OAuthToken.set (i : Nat) : Decoder OAuthToken := fun j v =>
  match i with
  | 0 => let r := decodeString j v.Accesstoken; ({ v with Accesstoken := r.1 }, r.2)
  | 1 => let r := decodeString j v.Tokentype; ({ v with Tokentype := r.1 }, r.2)
  | 2 => let r := decodeInt j v.Expiresin; ({ v with Expiresin := r.1 }, r.2)
  | _ => (v, none)

/-- Decoder of `OAuthToken`. -/
def OAuthToken.decode : Decoder OAuthToken := decodeStruct OAuthToken.names OAuthToken.set

/-- Element of `Organization.Data`. -/
structure OrganizationData where
  Id : Int := 0
deriving DecidableEq

/-- The organizations answer. -/
structure Organization where
  Data : List OrganizationData := []
deriving DecidableEq

/-- Decoding into field `i` of an element of `Organization.Data`. -/
def OrganizationData.set (i : Nat) : Decoder OrganizationData := fun j v =>
  match i with
  | 0 => let r := decodeInt j v.Id; ({ v with Id := r.1 }, r.2)
  | _ => (v, none)

/-- Decoder of an element of `Organization.Data`. -/
def OrganizationData.decode : Decoder OrganizationData :=
  decodeStruct ["id"] OrganizationData.set

/-- Decoding into field `i` of an `Organization`. -/
def Organization.set (i : Nat) : Decoder Organization := fun j v =>
  match i with
  | 0 => let r := decodeSlice OrganizationData.decode {} j v.Data; ({ v with Data := r.1 }, r.2)
  | _ => (v, none)

/-- Decoder of `Organization`; the field `Data` has no tag. -/
def Organization.decode : Decoder Organization := decodeStruct ["Data"] Organization.set

/-- Element of `Departments.Data`. -/
structure DepartmentsData where
  Id : String := ""
  Name : String := ""
  Description : String := ""
  IsEnabled : Bool := false
deriving DecidableEq

/-- The departments answer. -/
structure Departments where
  Data : List DepartmentsData := []
deriving DecidableEq

/-- JSON names of the fields of an element of `Departments.Data`. -/
def DepartmentsData.names : List String := ["id", "name", "description", "isEnabled"]

/-- Decoding into field `i` of an element of `Departments.Data`. -/
def DepartmentsData.set (i : Nat) : Decoder DepartmentsData := fun j v =>
  match i with
  | 0 => let r := decodeString j v.Id; ({ v with Id := r.1 }, r.2)
  | 1 => let r := decodeString j v.Name; ({ v with Name := r.1 }, r.2)
  | 2 => let r := decodeString j v.Description; ({ v with Description := r.1 }, r.2)
  | 3 => let r := decodeBool j v.IsEnabled; ({ v with IsEnabled := r.1 }, r.2)
  | _ => (v, none)

/-- Decoder of an element of `Departments.Data`. -/
def DepartmentsData.decode : Decoder DepartmentsData :=
  decodeStruct DepartmentsData.names DepartmentsData.set

/-- Decoding into field `i` of a `Departments`. -/
def Departments.set (i : Nat) : Decoder Departments := fun j v =>
  match i with
  | 0 => let r := decodeSlice DepartmentsData.decode {} j v.Data; ({ v with Data := r.1 }, r.2)
  | _ => (v, none)

/-- Decoder of `Departments`; the field `Data` has no tag. -/
def Departments.decode : Decoder Departments := decodeStruct ["Data"] Departments.set

/-- Element of `Agents.Data`. -/
structure AgentsData where
  Id : String := ""
  LastName : String := ""
  FirstName : String := ""
  RoleId : String := ""
  EmailId : String := ""
  Name : String := ""
  Mobile : String := ""
  Status : String := ""
  STcode : String := ""
  AssociatedDepartmentIds : List String := []
deriving DecidableEq

/-- The agents answer. -/
structure Agents where
  Data : List AgentsData := []
deriving DecidableEq

/-- JSON names of the fields of an element of `Agents.Data`. -/
def AgentsData.names : List String :=
  ["id", "lastName", "firstName", "roleId", "emailId", "name", "mobile", "status",
    "aboutInfo", "associatedDepartmentIds"]

/-- Decoding into field `i` of an element of `Agents.Data`. -/
def AgentsData.set (i : Nat) : Decoder AgentsData := fun j v =>
  match i with
  | 0 => let r := decodeString j v.Id; ({ v with Id := r.1 }, r.2)
  | 1 => let r := decodeString j v.LastName; ({ v with LastName := r.1 }, r.2)
  | 2 => let r := decodeString j v.FirstName; ({ v with FirstName := r.1 }, r.2)
  | 3 => let r := decodeString j v.RoleId; ({ v with RoleId := r.1 }, r.2)
  | 4 => let r := decodeString j v.EmailId; ({ v with EmailId := r.1 }, r.2)
  | 5 => let r := decodeString j v.Name; ({ v with Name := r.1 }, r.2)
  | 6 => let r := decodeString j v.Mobile; ({ v with Mobile := r.1 }, r.2)
  | 7 => let r := decodeString j v.Status; ({ v with Status := r.1 }, r.2)
  | 8 => let r := decodeString j v.STcode; ({ v with STcode := r.1 }, r.2)
  | 9 =>
    let r := decodeSlice decodeString "" j v.AssociatedDepartmentIds
    ({ v with AssociatedDepartmentIds := r.1 }, r.2)
  | _ => (v, none)

/-- Decoder of an element of `Agents.Data`. -/
def AgentsData.decode : Decoder AgentsData := decodeStruct AgentsData.names AgentsData.set

/-- Decoding into field `i` of an `Agents`. -/
def Agents.set (i : Nat) : Decoder Agents := fun j v =>
  match i with
  | 0 => let r := decodeSlice AgentsData.decode {} j v.Data; ({ v with Data := r.1 }, r.2)
  | _ => (v, none)

/-- Decoder of `Agents`; the field `Data` has no tag. -/
def Agents.decode : Decoder Agents := decodeStruct ["Data"] Agents.set

/-- The answer to a ticket update. -/
structure UpdateTicketResponse where
  TicketNumber : String := ""
  ModifiedTime : String := ""
  StatusType : String := ""
  DepartmentId : String := ""
  IsDeleted : Bool := false
  Id : String := ""
  AssigneeId : String := ""
  Status : String := ""
  ErrorMsg : String := ""
deriving DecidableEq

/-- JSON names of the fields of `UpdateTicketResponse`. -/
def UpdateTicketResponse.names : List String :=
  ["ticketNumber", "modifiedTime", "statusType", "departmentId", "isDeleted", "id",
    "assigneeId", "status", "message"]

/-- Decoding into field `i` of an `UpdateTicketResponse`. -/
def UpdateTicketResponse.set (i : Nat) : Decoder UpdateTicketResponse := fun j v =>
  match i with
  | 0 => let r := decodeString j v.TicketNumber; ({ v with TicketNumber := r.1 }, r.2)
  | 1 => let r := decodeString j v.ModifiedTime; ({ v with ModifiedTime := r.1 }, r.2)
  | 2 => let r := decodeString j v.StatusType; ({ v with StatusType := r.1 }, r.2)
  | 3 => let r := decodeString j v.DepartmentId; ({ v with DepartmentId := r.1 }, r.2)
  | 4 => let r := decodeBool j v.IsDeleted; ({ v with IsDeleted := r.1 }, r.2)
  | 5 => let r := decodeString j v.Id; ({ v with Id := r.1 }, r.2)
  | 6 => let r := decodeString j v.AssigneeId; ({ v with AssigneeId := r.1 }, r.2)
  | 7 => let r := decodeString j v.Status; ({ v with Status := r.1 }, r.2)
  | 8 => let r := decodeString j v.ErrorMsg; ({ v with ErrorMsg := r.1 }, r.2)
  | _ => (v, none)

/-- Decoder of `UpdateTicketResponse`. -/
def UpdateTicketResponse.decode : Decoder UpdateTicketResponse :=
  decodeStruct UpdateTicketResponse.names UpdateTicketResponse.set

/-- What a ticket update is asked to do.  `DepartmentId` and `AssigneeId` are
passed to `json.Marshal`; `TicketId` is only appended to a URL. -/
structure UpdateTicketDetails where
  TicketId : String := ""
  DepartmentId : GoString := ""
  AssigneeId : GoString := ""
deriving DecidableEq

/-- The field `TicketDetailsResponse.Assignee`. -/
structure TicketAssignee where
  FirstName : String := ""
  LastName : String := ""
deriving DecidableEq

/-- The field `TicketDetailsResponse.Cf`. -/
structure TicketCf where
  Cf_reason : String := ""
  Cf_reminderdate : String := ""
deriving DecidableEq

/-- The ticket details answer. -/
structure TicketDetailsResponse where
  Id : String := ""
  TicketNumber : String := ""
  ModifiedTime : String := ""
  ClosedTime : String := ""
  DepartmentId : String := ""
  AssigneeId : String := ""
  IsDeleted : Bool := false
  Status : String := ""
  ErrorMsg : String := ""
  Assignee : TicketAssignee := {}
  Cf : TicketCf := {}
deriving DecidableEq

/-- Decoding into field `i` of `TicketDetailsResponse.Assignee`. -/
def TicketAssignee.set (i : Nat) : Decoder TicketAssignee := fun j v =>
  match i with
  | 0 => let r := decodeString j v.FirstName; ({ v with FirstName := r.1 }, r.2)
  | 1 => let r := decodeString j v.LastName; ({ v with LastName := r.1 }, r.2)
  | _ => (v, none)

/-- Decoder of `TicketDetailsResponse.Assignee`. -/
def TicketAssignee.decode : Decoder TicketAssignee :=
  decodeStruct ["firstName", "lastName"] TicketAssignee.set

/-- Decoding into field `i` of `TicketDetailsResponse.Cf`. -/
def TicketCf.set (i : Nat) : Decoder TicketCf := fun j v =>
  match i with
  | 0 => let r := decodeString j v.Cf_reason; ({ v with Cf_reason := r.1 }, r.2)
  | 1 => let r := decodeString j v.Cf_reminderdate; ({ v with Cf_reminderdate := r.1 }, r.2)
  | _ => (v, none)

/-- Decoder of `TicketDetailsResponse.Cf`. -/
def TicketCf.decode : Decoder TicketCf :=
  decodeStruct ["cf_reason", "cf_reminderdate"] TicketCf.set

/-- JSON names of the fields of `TicketDetailsResponse`; `Assignee` and `Cf`
have no tag. -/
def TicketDetailsResponse.names : List String :=
  ["id", "ticketNumber", "modifiedTime", "closedTime", "departmentId", "assigneeId",
    "isDeleted", "status", "message", "Assignee", "Cf"]

/-- Decoding into field `i` of a `TicketDetailsResponse`. -/
def TicketDetailsResponse.set (i : Nat) : Decoder TicketDetailsResponse := fun j v =>
  match i with
  | 0 => let r := decodeString j v.Id; ({ v with Id := r.1 }, r.2)
  | 1 => let r := decodeString j v.TicketNumber; ({ v with TicketNumber := r.1 }, r.2)
  | 2 => let r := decodeString j v.ModifiedTime; ({ v with ModifiedTime := r.1 }, r.2)
  | 3 => let r := decodeString j v.ClosedTime; ({ v with ClosedTime := r.1 }, r.2)
  | 4 => let r := decodeString j v.DepartmentId; ({ v with DepartmentId := r.1 }, r.2)
  | 5 => let r := decodeString j v.AssigneeId; ({ v with AssigneeId := r.1 }, r.2)
  | 6 => let r := decodeBool j v.IsDeleted; ({ v with IsDeleted := r.1 }, r.2)
  | 7 => let r := decodeString j v.Status; ({ v with Status := r.1 }, r.2)
  | 8 => let r := decodeString j v.ErrorMsg; ({ v with ErrorMsg := r.1 }, r.2)
  | 9 => let r := TicketAssignee.decode j v.Assignee; ({ v with Assignee := r.1 }, r.2)
  | 10 => let r := TicketCf.decode j v.Cf; ({ v with Cf := r.1 }, r.2)
  | _ => (v, none)

/-- Decoder of `TicketDetailsResponse`. -/
def TicketDetailsResponse.decode : Decoder TicketDetailsResponse :=
  decodeStruct TicketDetailsResponse.names TicketDetailsResponse.set

/-! ## The functions of `zoho.go` -/

/-- The errors the package returns: the three `fmt.Errorf` calls, with the
cause they are given. -/
inductive GoError where
  | httpFailed (cause : String)
  | jsonFailed (cause : JsonError)
  | unknownError
deriving DecidableEq

/-- How a call ends: it returns its pair of results, or it dereferences the nil
request that a failed `http.NewRequest` left in `reqs` and the goroutine
panics. -/
inductive Result (α : Type) where
  | panic
  | returned (value : α) (err : Option GoError)
deriving DecidableEq

/-- A call of one of the functions: the requests it handed to `client.Do` and
how it ended. -/
structure Run (α : Type) where
  sent : List Request
  result : Result α

/-- Return an auth token based on a refresh token. -/
def GetOAuthToken (env : Env) (params : Params) : Run String :=
  let urla := params.AthURL ++ params.OauthGenerateTokenRequestSlug
  let parm : Values := {}
  let parm := parm.Set "refresh_token" params.RefreshToken
  let parm := parm.Add "client_id" params.ClientID
  let parm := parm.Add "client_secret" params.ClientSecret
  let parm := parm.Add "scope" params.Scope
  let parm := parm.Add "redirect_uri" params.RedirectURI
  let parm := parm.Add "grant_type" params.RgrantType
  match NewRequest env "POST" urla (some parm.Encode) with
  | none => ⟨[], .panic⟩
  | some reqs =>
    let reqs := reqs.HeaderAdd "Content-Type" "application/x-www-form-urlencoded"
    ⟨[reqs],
      match env.Do reqs with
      | .error err => .returned "" (some (.httpFailed err))
      | .ok data =>
        let v_OAuthToken : OAuthToken := {}
        match Unmarshal OAuthToken.decode data v_OAuthToken with
        | (_, some err) => .returned "" (some (.jsonFailed err))
        | (v_OAuthToken, none) => .returned v_OAuthToken.Accesstoken none⟩

/-- The function `strconv.Itoa`. -/
def Itoa (n : Int) : String :=
  if n < 0 then "-" ++ Nat.repr n.natAbs else Nat.repr n.natAbs

/-- Return the organization value from Zoho. -/
def GetOrganization (env : Env) (authtoken : String) : Run String :=
  let v_Organization : Organization := {}
  let urla := "https://desk.zoho.com/api/v1/organizations"
  match NewRequest env "GET" urla none with
  | none => ⟨[], .panic⟩
  | some reqs =>
    let reqs := reqs.HeaderAdd "Content-Type" "application/x-www-form-urlencoded"
    let reqs := reqs.HeaderAdd "Authorization" ("Zoho-oauthtoken " ++ authtoken)
    ⟨[reqs],
      match env.Do reqs with
      | .error err => .returned "" (some (.httpFailed err))
      | .ok data =>
        match Unmarshal Organization.decode data v_Organization with
        | (_, some err) => .returned "" (some (.jsonFailed err))
        | (v_Organization, none) =>
          match v_Organization.Data with
          | first :: _ => .returned (Itoa first.Id) none
          | [] => .returned "" (some .unknownError)⟩

/-- The tail shared by the six functions that guard the decoding with
`string(data) != ""`: the answer of the transport is turned into the pair of
results. -/
def guardedDecode {α : Type} (dec : Decoder α) (v : α) (answer : Except String String) :
    Result α :=
  match answer with
  | .error err => .returned v (some (.httpFailed err))
  | .ok data =>
    if data ≠ "" then
      match Unmarshal dec data v with
      | (v, some err) => .returned v (some (.jsonFailed err))
      | (v, none) => .returned v none
    else .returned v none

/-- Return the departments from Zoho. -/
def GetDepartments (env : Env) (authtoken : String) : Run Departments :=
  let v_Departments : Departments := {}
  let urla := "https://desk.zoho.com/api/v1/departments?limit=100"
  match NewRequest env "GET" urla none with
  | none => ⟨[], .panic⟩
  | some reqs =>
    let reqs := reqs.HeaderAdd "Content-Type" "application/x-www-form-urlencoded"
    let reqs := reqs.HeaderAdd "Authorization" ("Zoho-oauthtoken " ++ authtoken)
    ⟨[reqs], guardedDecode Departments.decode v_Departments (env.Do reqs)⟩

/-- Return the agents from Zoho (the comment in the source says departments,
copied from `GetDepartments`). -/
def GetAgents (env : Env) (authtoken : String) («from» : String) (limit : String)
    (emailID : String) : Run Agents :=
  let v_Agents : Agents := {}
  let urla := "https://desk.zoho.com/api/v1/agents?"
  let urla := if «from» ≠ "" then urla ++ "&from=" ++ «from» else urla
  let urla := if limit ≠ "" then urla ++ "&limit=" ++ limit else urla
  let urla := if emailID ≠ "" then urla ++ "&fieldName=emailId&searchStr=" ++ emailID else urla
  match NewRequest env "GET" urla none with
  | none => ⟨[], .panic⟩
  | some reqs =>
    let reqs := reqs.HeaderAdd "Content-Type" "application/x-www-form-urlencoded"
    let reqs := reqs.HeaderAdd "Authorization" ("Zoho-oauthtoken " ++ authtoken)
    ⟨[reqs], guardedDecode Agents.decode v_Agents (env.Do reqs)⟩

/-- Return the org id already saved locally. -/
def GetOrg (params : Params) : String := params.Org

/-- Update the status of a ticket. -/
def UpdateTicketStatus (env : Env) (authtoken : String) (orgID : String) (ticketID : String)
    (status : GoString) : Run UpdateTicketResponse :=
  let v_Response : UpdateTicketResponse := {}
  let urla := "https://desk.zoho.com/api/v1/tickets/" ++ ticketID
  let postBody := Marshal [("status", status)]
  match NewRequest env "PATCH" urla (some postBody) with
  | none => ⟨[], .panic⟩
  | some reqs =>
    let reqs := reqs.HeaderAdd "Content-Type" "application/json"
    let reqs := reqs.HeaderAdd "orgId" orgID
    let reqs := reqs.HeaderAdd "Authorization" ("Zoho-oauthtoken " ++ authtoken)
    ⟨[reqs], guardedDecode UpdateTicketResponse.decode v_Response (env.Do reqs)⟩

/-- Update the agent of a ticket. -/
def UpdateTicketAgent (env : Env) (authtoken : String) (orgID : String)
    (ticket : UpdateTicketDetails) : Run UpdateTicketResponse :=
  let v_Response : UpdateTicketResponse := {}
  let urla := "https://desk.zoho.com/api/v1/tickets/" ++ ticket.TicketId
  let postBody := Marshal [
    ("assigneeId", ticket.AssigneeId),
    ("departmentId", ticket.DepartmentId),
    ("status", "Open")]
  match NewRequest env "PATCH" urla (some postBody) with
  | none => ⟨[], .panic⟩
  | some reqs =>
    let reqs := reqs.HeaderAdd "Content-Type" "application/json"
    let reqs := reqs.HeaderAdd "orgId" orgID
    let reqs := reqs.HeaderAdd "Authorization" ("Zoho-oauthtoken " ++ authtoken)
    ⟨[reqs], guardedDecode UpdateTicketResponse.decode v_Response (env.Do reqs)⟩

/-- Move a ticket to another department (the `log.Println` of the response
writes to the log only and is left out). -/
def UpdateTicketMove (env : Env) (authtoken : String) (orgID : String)
    (ticket : UpdateTicketDetails) : Run UpdateTicketResponse :=
  let v_Response : UpdateTicketResponse := {}
  let urla := "https://desk.zoho.com/api/v1/tickets/" ++ ticket.TicketId ++ "/move"
  let postBody := Marshal [("departmentId", ticket.DepartmentId)]
  match NewRequest env "POST" urla (some postBody) with
  | none => ⟨[], .panic⟩
  | some reqs =>
    let reqs := reqs.HeaderAdd "Content-Type" "application/json"
    let reqs := reqs.HeaderAdd "orgId" orgID
    let reqs := reqs.HeaderAdd "Authorization" ("Zoho-oauthtoken " ++ authtoken)
    ⟨[reqs], guardedDecode UpdateTicketResponse.decode v_Response (env.Do reqs)⟩

/-- Get the details of a ticket from Zoho. -/
def GetTicketDetails (env : Env) (authtoken : String) (orgID : String) (ticketid : String) :
    Run TicketDetailsResponse :=
  let v_Response : TicketDetailsResponse := {}
  let urla := "https://desk.zoho.com/api/v1/tickets/" ++ ticketid ++ "?include=assignee,departments"
  match NewRequest env "GET" urla none with
  | none => ⟨[], .panic⟩
  | some reqs =>
    let reqs := reqs.HeaderAdd "Content-Type" "application/x-www-form-urlencoded"
    let reqs := reqs.HeaderAdd "orgId" orgID
    let reqs := reqs.HeaderAdd "Authorization" ("Zoho-oauthtoken " ++ authtoken)
    ⟨[reqs], guardedDecode TicketDetailsResponse.decode v_Response (env.Do reqs)⟩

/-! ## Reading a run -/

/-- The call returned, and its error is not nil. -/
def Result.failed {α : Type} : Result α → Bool
  | .returned _ (some _) => true
  | _ => false

/-- An environment that accepts every URL and answers every request with the
same body. -/
def answering (body : String) : Env := ⟨fun _ => true, fun _ => .ok body⟩

/-- The call handed a request to the transport, and the transport answered
without error, the body read being `body`. -/
def Answered {α : Type} (env : Env) (run : Run α) (body : String) : Prop :=
  run.sent ≠ [] ∧ ∀ r ∈ run.sent, env.Do r = .ok body

/-- What `GetOAuthToken` makes of the body of an answer. -/
def tokenResult (body : String) : Result String :=
  match Unmarshal OAuthToken.decode body {} with
  | (_, some err) => .returned "" (some (.jsonFailed err))
  | (v, none) => .returned v.Accesstoken none

/-- What `GetOrganization` makes of the body of an answer. -/
def organizationResult (body : String) : Result String :=
  match Unmarshal Organization.decode body {} with
  | (_, some err) => .returned "" (some (.jsonFailed err))
  | (v, none) =>
    match v.Data with
    | first :: _ => .returned (Itoa first.Id) none
    | [] => .returned "" (some .unknownError)

/-! ## The shape a response is expected to have -/

/-- The JSON shape `json.Unmarshal` expects for a Go type: a string, a number,
a boolean, an array of one shape, or an object whose recognised keys (the JSON
names of the struct fields, in declaration order) each have a shape. -/
inductive Shape where
  | string
  | int
  | bool
  | slice (elem : Shape)
  | struct (names : List String) (field : Nat → Shape)

/-- The document holds, at the top or under recognised keys, a value other than
`null` whose JSON type is not the one the shape expects. -/
def violates : Shape → Json → Bool
  | _, .null => false
  | .string, .str _ => false
  | .string, _ => true
  | .int, .num _ => false
  | .int, _ => true
  | .bool, .bool _ => false
  | .bool, _ => true
  | .slice elem, .arr xs => xs.any (violates elem)
  | .slice _, _ => true
  | .struct names field, .obj ms =>
    ms.any fun m =>
      match fieldIndex names m.1 with
      | some i => violates (field i) m.2
      | none => false
  | .struct _ _, _ => true

/-- Shapes of the fields of `OAuthToken`, by field number. -/
def OAuthToken.fieldShape (i : Nat) : Shape :=
  match i with
  | 2 => .int
  | _ => .string

/-- Shape of `OAuthToken`. -/
def OAuthToken.shape : Shape := .struct OAuthToken.names OAuthToken.fieldShape

/-- Shape of `Organization`. -/
def Organization.shape : Shape :=
  .struct ["Data"] fun _ => .slice (.struct ["id"] fun _ => .int)

/-- Shapes of the fields of an element of `Departments.Data`. -/
def DepartmentsData.fieldShape (i : Nat) : Shape :=
  match i with
  | 3 => .bool
  | _ => .string

/-- Shape of `Departments`. -/
def Departments.shape : Shape :=
  .struct ["Data"] fun _ => .slice (.struct DepartmentsData.names DepartmentsData.fieldShape)

/-- Shapes of the fields of an element of `Agents.Data`. -/
def AgentsData.fieldShape (i : Nat) : Shape :=
  match i with
  | 9 => .slice .string
  | _ => .string

/-- Shape of `Agents`. -/
def Agents.shape : Shape :=
  .struct ["Data"] fun _ => .slice (.struct AgentsData.names AgentsData.fieldShape)

/-- Shapes of the fields of `UpdateTicketResponse`, by field number. -/
def UpdateTicketResponse.fieldShape (i : Nat) : Shape :=
  match i with
  | 4 => .bool
  | _ => .string

/-- Shape of `UpdateTicketResponse`. -/
def UpdateTicketResponse.shape : Shape :=
  .struct UpdateTicketResponse.names UpdateTicketResponse.fieldShape

/-- Shapes of the fields of `TicketDetailsResponse`, by field number. -/
def TicketDetailsResponse.fieldShape (i : Nat) : Shape :=
  match i with
  | 6 => .bool
  | 9 => .struct ["firstName", "lastName"] fun _ => .string
  | 10 => .struct ["cf_reason", "cf_reminderdate"] fun _ => .string
  | _ => .string

/-- Shape of `TicketDetailsResponse`. -/
def TicketDetailsResponse.shape : Shape :=
  .struct TicketDetailsResponse.names TicketDetailsResponse.fieldShape

/-- The body of an answer does not fit the shape: it is not JSON at all, or it
is JSON that violates the shape. -/
def Misshapen (shape : Shape) (body : String) : Prop :=
  parseJSON body = none ∨ ∃ j, parseJSON body = some j ∧ violates shape j = true

/-- A decoder reports every violation of a shape. -/
def Sound {α : Type} (shape : Shape) (dec : Decoder α) : Prop :=
  ∀ j v, violates shape j = true → (dec j v).2 ≠ none

/-- The value is a string, a boolean, or an integer literal within the range of
`int`, as the shape of a plain field asks. -/
def holds : Shape → Json → Bool
  | .string, .str _ => true
  | .bool, .bool _ => true
  | .int, .num lit => (parseInt lit).isSome
  | _, _ => false

/-- Every member of an object whose key selects a field holds a value of the
type of that field. -/
def Typed (names : List String) (field : Nat → Shape) (ms : List (String × Json)) : Prop :=
  ∀ m ∈ ms, ∀ i, fieldIndex names m.1 = some i → holds (field i) m.2 = true

/-- The computation that checks `Typed` member by member. -/
def checkTyped (names : List String) (field : Nat → Shape) (ms : List (String × Json)) : Bool :=
  ms.all fun m =>
    match fieldIndex names m.1 with
    | some i => holds (field i) m.2
    | none => true

/-- The value of the last member of an object whose key selects field `i`. -/
def lastField (names : List String) (i : Nat) : List (String × Json) → Option Json
  | [] => none
  | (k, j) :: ms =>
    match lastField names i ms with
    | some x => some x
    | none => if fieldIndex names k = some i then some j else none

/-- The string a member holds; `d` when there is no member. -/
def stringOr (d : String) : Option Json → String
  | some (.str s) => s
  | _ => d

/-- The boolean a member holds; `d` when there is no member. -/
def boolOr (d : Bool) : Option Json → Bool
  | some (.bool b) => b
  | _ => d

/-- An `UpdateTicketResponse` whose fields mirror the members of an object:
each field holds the value of the last member whose key selects it, and its zero
value when there is none. -/
def UpdateTicketResponse.mirror (ms : List (String × Json)) : UpdateTicketResponse :=
  { TicketNumber := stringOr "" (lastField UpdateTicketResponse.names 0 ms)
    ModifiedTime := stringOr "" (lastField UpdateTicketResponse.names 1 ms)
    StatusType := stringOr "" (lastField UpdateTicketResponse.names 2 ms)
    DepartmentId := stringOr "" (lastField UpdateTicketResponse.names 3 ms)
    IsDeleted := boolOr false (lastField UpdateTicketResponse.names 4 ms)
    Id := stringOr "" (lastField UpdateTicketResponse.names 5 ms)
    AssigneeId := stringOr "" (lastField UpdateTicketResponse.names 6 ms)
    Status := stringOr "" (lastField UpdateTicketResponse.names 7 ms)
    ErrorMsg := stringOr "" (lastField UpdateTicketResponse.names 8 ms) }

/-- Whether the characters of `pat` occur, in a row, somewhere in `s`. -/
def occursIn (pat s : String) : Prop := pat.toList <:+: s.toList

instance (pat s : String) : Decidable (occursIn pat s) := by
  unfold occursIn; infer_instance

/-! ## Runs that reached the transport -/

theorem GetOAuthToken_answered (env : Env) (params : Params) (body : String)
    (h : Answered env (GetOAuthToken env params) body) :
    (GetOAuthToken env params).result = tokenResult body := by
  obtain ⟨hne, hans⟩ := h
  unfold GetOAuthToken at hne hans ⊢
  simp only [] at hne hans ⊢
  split at hne
  · exact absurd rfl hne
  · rename_i reqs hreq
    simp only [hreq] at hans ⊢
    rw [hans _ (List.mem_singleton.mpr rfl)]
    rfl

theorem GetOrganization_answered (env : Env) (authtoken : String) (body : String)
    (h : Answered env (GetOrganization env authtoken) body) :
    (GetOrganization env authtoken).result = organizationResult body := by
  obtain ⟨hne, hans⟩ := h
  unfold GetOrganization at hne hans ⊢
  simp only [] at hne hans ⊢
  split at hne
  · exact absurd rfl hne
  · rename_i reqs hreq
    simp only [hreq] at hans ⊢
    rw [hans _ (List.mem_singleton.mpr rfl)]
    rfl

theorem GetDepartments_answered (env : Env) (authtoken : String) (body : String)
    (h : Answered env (GetDepartments env authtoken) body) :
    (GetDepartments env authtoken).result
      = guardedDecode Departments.decode {} (.ok body) := by
  obtain ⟨hne, hans⟩ := h
  unfold GetDepartments at hne hans ⊢
  simp only [] at hne hans ⊢
  split at hne
  · exact absurd rfl hne
  · rename_i reqs hreq
    simp only [hreq] at hans ⊢
    rw [hans _ (List.mem_singleton.mpr rfl)]

theorem GetAgents_answered (env : Env) (authtoken f limit emailID : String) (body : String)
    (h : Answered env (GetAgents env authtoken f limit emailID) body) :
    (GetAgents env authtoken f limit emailID).result
      = guardedDecode Agents.decode {} (.ok body) := by
  obtain ⟨hne, hans⟩ := h
  unfold GetAgents at hne hans ⊢
  simp only [] at hne hans ⊢
  split at hne
  · exact absurd rfl hne
  · rename_i reqs hreq
    simp only [hreq] at hans ⊢
    rw [hans _ (List.mem_singleton.mpr rfl)]

theorem UpdateTicketStatus_answered (env : Env) (authtoken orgID ticketID : String)
    (status : GoString) (body : String)
    (h : Answered env (UpdateTicketStatus env authtoken orgID ticketID status) body) :
    (UpdateTicketStatus env authtoken orgID ticketID status).result
      = guardedDecode UpdateTicketResponse.decode {} (.ok body) := by
  obtain ⟨hne, hans⟩ := h
  unfold UpdateTicketStatus at hne hans ⊢
  simp only [] at hne hans ⊢
  split at hne
  · exact absurd rfl hne
  · rename_i reqs hreq
    simp only [hreq] at hans ⊢
    rw [hans _ (List.mem_singleton.mpr rfl)]

theorem UpdateTicketAgent_answered (env : Env) (authtoken orgID : String)
    (ticket : UpdateTicketDetails) (body : String)
    (h : Answered env (UpdateTicketAgent env authtoken orgID ticket) body) :
    (UpdateTicketAgent env authtoken orgID ticket).result
      = guardedDecode UpdateTicketResponse.decode {} (.ok body) := by
  obtain ⟨hne, hans⟩ := h
  unfold UpdateTicketAgent at hne hans ⊢
  simp only [] at hne hans ⊢
  split at hne
  · exact absurd rfl hne
  · rename_i reqs hreq
    simp only [hreq] at hans ⊢
    rw [hans _ (List.mem_singleton.mpr rfl)]

theorem UpdateTicketMove_answered (env : Env) (authtoken orgID : String)
    (ticket : UpdateTicketDetails) (body : String)
    (h : Answered env (UpdateTicketMove env authtoken orgID ticket) body) :
    (UpdateTicketMove env authtoken orgID ticket).result
      = guardedDecode UpdateTicketResponse.decode {} (.ok body) := by
  obtain ⟨hne, hans⟩ := h
  unfold UpdateTicketMove at hne hans ⊢
  simp only [] at hne hans ⊢
  split at hne
  · exact absurd rfl hne
  · rename_i reqs hreq
    simp only [hreq] at hans ⊢
    rw [hans _ (List.mem_singleton.mpr rfl)]

theorem GetTicketDetails_answered (env : Env) (authtoken orgID ticketid : String)
    (body : String)
    (h : Answered env (GetTicketDetails env authtoken orgID ticketid) body) :
    (GetTicketDetails env authtoken orgID ticketid).result
      = guardedDecode TicketDetailsResponse.decode {} (.ok body) := by
  obtain ⟨hne, hans⟩ := h
  unfold GetTicketDetails at hne hans ⊢
  simp only [] at hne hans ⊢
  split at hne
  · exact absurd rfl hne
  · rename_i reqs hreq
    simp only [hreq] at hans ⊢
    rw [hans _ (List.mem_singleton.mpr rfl)]

theorem guardedDecode_empty {α : Type} (dec : Decoder α) (v : α) :
    guardedDecode dec v (.ok "") = .returned v none := by
  simp [guardedDecode]

theorem answering_answered {α : Type} (body : String) (run : Run α) (h : run.sent ≠ []) :
    Answered (answering body) run body :=
  ⟨h, fun _ _ => rfl⟩

/-! ## C1: the empty response body -/

/-- C1, as the code has it: after a transport call that succeeded with an empty
body, the six functions that test `string(data) != ""` (GetDepartments,
GetAgents, UpdateTicketStatus, UpdateTicketAgent, UpdateTicketMove,
GetTicketDetails) return the zero-valued struct and a nil error, while
GetOrganization returns the empty string with a non-nil error (the decode
error). -/
theorem empty_body_results (env : Env) (authtoken orgID ticketID : String) (status : GoString)
    (f limit emailID : String) (ticket : UpdateTicketDetails) :
    (Answered env (GetDepartments env authtoken) "" →
      (GetDepartments env authtoken).result = .returned {} none) ∧
    (Answered env (GetAgents env authtoken f limit emailID) "" →
      (GetAgents env authtoken f limit emailID).result = .returned {} none) ∧
    (Answered env (UpdateTicketStatus env authtoken orgID ticketID status) "" →
      (UpdateTicketStatus env authtoken orgID ticketID status).result = .returned {} none) ∧
    (Answered env (UpdateTicketAgent env authtoken orgID ticket) "" →
      (UpdateTicketAgent env authtoken orgID ticket).result = .returned {} none) ∧
    (Answered env (UpdateTicketMove env authtoken orgID ticket) "" →
      (UpdateTicketMove env authtoken orgID ticket).result = .returned {} none) ∧
    (Answered env (GetTicketDetails env authtoken orgID ticketID) "" →
      (GetTicketDetails env authtoken orgID ticketID).result = .returned {} none) ∧
    (Answered env (GetOrganization env authtoken) "" →
      (GetOrganization env authtoken).result
        = .returned "" (some (.jsonFailed .malformed))) := by
  refine ⟨?_, ?_, ?_, ?_, ?_, ?_, ?_⟩
  · intro h; rw [GetDepartments_answered env authtoken "" h, guardedDecode_empty]
  · intro h; rw [GetAgents_answered env authtoken f limit emailID "" h, guardedDecode_empty]
  · intro h
    rw [UpdateTicketStatus_answered env authtoken orgID ticketID status "" h, guardedDecode_empty]
  · intro h; rw [UpdateTicketAgent_answered env authtoken orgID ticket "" h, guardedDecode_empty]
  · intro h; rw [UpdateTicketMove_answered env authtoken orgID ticket "" h, guardedDecode_empty]
  · intro h; rw [GetTicketDetails_answered env authtoken orgID ticketID "" h, guardedDecode_empty]
  · intro h
    rw [GetOrganization_answered env authtoken "" h]
    rfl

/-- C1 at a concrete run: a server that answers every request with an empty
body. -/
theorem empty_body_results_witness :
    (GetDepartments (answering "") "tok").result = .returned {} none ∧
    (GetAgents (answering "") "tok" "1" "50" "a@b.c").result = .returned {} none ∧
    (UpdateTicketStatus (answering "") "tok" "org" "77" "Closed").result = .returned {} none ∧
    (UpdateTicketAgent (answering "") "tok" "org" ⟨"77", "5", "9"⟩).result = .returned {} none ∧
    (UpdateTicketMove (answering "") "tok" "org" ⟨"77", "5", "9"⟩).result = .returned {} none ∧
    (GetTicketDetails (answering "") "tok" "org" "77").result = .returned {} none ∧
    (GetOrganization (answering "") "tok").result
      = .returned "" (some (.jsonFailed .malformed)) := by
  have h := empty_body_results (answering "") "tok" "org" "77" "Closed" "1" "50" "a@b.c"
    ⟨"77", "5", "9"⟩
  exact ⟨h.1 (answering_answered _ _ (by decide)),
    h.2.1 (answering_answered _ _ (by decide)),
    h.2.2.1 (answering_answered _ _ (by decide)),
    h.2.2.2.1 (answering_answered _ _ (by decide)),
    h.2.2.2.2.1 (answering_answered _ _ (by decide)),
    h.2.2.2.2.2.1 (answering_answered _ _ (by decide)),
    h.2.2.2.2.2.2 (answering_answered _ _ (by decide))⟩

/-- C1 fails as stated: GetOrganization, answered with an empty body, returns a
non-nil error (the decode error), not a zero value with a nil error. -/
theorem GetOrganization_empty_body_error :
    Answered (answering "") (GetOrganization (answering "") "tok") "" ∧
    (GetOrganization (answering "") "tok").result
      = .returned "" (some (.jsonFailed .malformed)) ∧
    (GetOrganization (answering "") "tok").result ≠ .returned "" none :=
  ⟨answering_answered _ _ (by decide), rfl, by decide⟩

/-! ## C2: an answer without organizations -/

theorem toDigitsCore_ne_nil (b : Nat) : ∀ (f n : Nat) (ds : List Char), ds ≠ [] →
    Nat.toDigitsCore b f n ds ≠ []
  | 0, _, ds, h => by simpa [Nat.toDigitsCore] using h
  | f + 1, n, ds, _ => by
    unfold Nat.toDigitsCore
    simp only []
    split
    · exact List.cons_ne_nil _ _
    · exact toDigitsCore_ne_nil b f _ _ (List.cons_ne_nil _ _)

theorem repr_ne_empty (n : Nat) : Nat.repr n ≠ "" := by
  intro h
  have h1 : (Nat.repr n).data = [] := by rw [h]
  have h2 : Nat.toDigits 10 n ≠ [] := by
    unfold Nat.toDigits Nat.toDigitsCore
    simp only []
    split
    · exact List.cons_ne_nil _ _
    · exact toDigitsCore_ne_nil 10 _ _ _ (List.cons_ne_nil _ _)
  exact h2 (by simpa [Nat.repr, List.asString] using h1)

theorem Itoa_ne_empty (n : Int) : Itoa n ≠ "" := by
  unfold Itoa
  split
  · intro h
    have : ("-" ++ Nat.repr n.natAbs).data = [] := by rw [h]
    simp at this
  · exact repr_ne_empty _

theorem organizationResult_ne (body : String) :
    organizationResult body ≠ .returned "" none := by
  unfold organizationResult
  split
  · simp
  · split
    · intro h
      injection h with h1 _
      exact Itoa_ne_empty _ h1
    · simp

theorem GetOrganization_never_empty_success (env : Env) (authtoken : String) :
    (GetOrganization env authtoken).result ≠ .returned "" none := by
  unfold GetOrganization
  simp only []
  split
  · simp
  · simp only []
    split
    · simp
    · exact organizationResult_ne _

/-- C2: when the transport succeeded and the body decodes, without error, to an
Organization whose data list has no entry, GetOrganization returns the empty
string with the non-nil "Unknown error" error; and whatever the answer,
GetOrganization never returns the pair ("", nil). -/
theorem GetOrganization_zero_entries (env : Env) (authtoken body : String) (v : Organization)
    (h : Answered env (GetOrganization env authtoken) body)
    (hdec : Unmarshal Organization.decode body {} = (v, none))
    (hzero : v.Data = []) :
    (GetOrganization env authtoken).result = .returned "" (some .unknownError) ∧
    ∀ (env1 : Env) (token1 : String),
      (GetOrganization env1 token1).result ≠ .returned "" none := by
  refine ⟨?_, GetOrganization_never_empty_success⟩
  rw [GetOrganization_answered env authtoken body h]
  unfold organizationResult
  rw [hdec]
  simp only [hzero]

/-- C2 on the bodies `{"data":[]}` and `{}`. -/
theorem GetOrganization_zero_entries_witness :
    (GetOrganization (answering "\x7b\"data\":[]\x7d") "tok").result
      = .returned "" (some .unknownError) ∧
    (GetOrganization (answering "\x7b\x7d") "tok").result = .returned "" (some .unknownError) :=
  ⟨(GetOrganization_zero_entries (answering "\x7b\"data\":[]\x7d") "tok" "\x7b\"data\":[]\x7d" {}
      (answering_answered _ _ (by decide)) (by rfl) rfl).1,
   (GetOrganization_zero_entries (answering "\x7b\x7d") "tok" "\x7b\x7d" {}
      (answering_answered _ _ (by decide)) (by rfl) rfl).1⟩

/-! ## Requests that can be built -/

theorem NewRequest_builds (env : Env) (method url : String) (body : Option String)
    (h : env.builds url = true) : NewRequest env method url body = some ⟨method, url, [], body⟩ := by
  unfold Env.builds at h
  rw [Bool.and_eq_true, Bool.not_eq_true'] at h
  unfold NewRequest
  rw [h.1, h.2]
  rfl

theorem NewRequest_some (env : Env) (method url : String) (body : Option String) (r : Request)
    (h : NewRequest env method url body = some r) : r = ⟨method, url, [], body⟩ := by
  unfold NewRequest at h
  split at h
  · cases h
  · split at h
    · cases h; rfl
    · cases h

theorem canonical_content_type : CanonicalMIMEHeaderKey "Content-Type" = "Content-Type" := by
  decide

theorem canonical_orgId : CanonicalMIMEHeaderKey "orgId" = "Orgid" := by decide

theorem canonical_authorization :
    CanonicalMIMEHeaderKey "Authorization" = "Authorization" := by decide

/-! ## C3: the URL of the agent search -/

/-- C3, as the code has it: for all strings from, limit and emailID such that
`http.NewRequest` makes a request from the URL `url`, which is the base followed
by `&from=`+from, `&limit=`+limit and `&fieldName=emailId&searchStr=`+emailID,
in this order, each present only if its input is non-empty, GetAgents hands
exactly one request to the transport, a GET of `url`; and with three empty
inputs `url` is the base and contains none of `from=`, `limit=`, `fieldName=`,
`searchStr=`. -/
theorem GetAgents_url (env : Env) (authtoken f limit emailID url : String)
    (hurl : url = "https://desk.zoho.com/api/v1/agents?"
        ++ (if f ≠ "" then "&from=" ++ f else "")
        ++ (if limit ≠ "" then "&limit=" ++ limit else "")
        ++ (if emailID ≠ "" then "&fieldName=emailId&searchStr=" ++ emailID else ""))
    (hbuilds : env.builds url = true) :
    (GetAgents env authtoken f limit emailID).sent
      = [⟨"GET", url,
          [("Content-Type", "application/x-www-form-urlencoded"),
            ("Authorization", "Zoho-oauthtoken " ++ authtoken)],
          none⟩] ∧
    (f = "" → limit = "" → emailID = "" →
      url = "https://desk.zoho.com/api/v1/agents?" ∧ ¬ occursIn "from=" url ∧
        ¬ occursIn "limit=" url ∧ ¬ occursIn "fieldName=" url ∧
        ¬ occursIn "searchStr=" url) := by
  have hu : (if emailID ≠ "" then
        (if limit ≠ "" then
          (if f ≠ "" then "https://desk.zoho.com/api/v1/agents?" ++ "&from=" ++ f
            else "https://desk.zoho.com/api/v1/agents?") ++ "&limit=" ++ limit
          else
            (if f ≠ "" then "https://desk.zoho.com/api/v1/agents?" ++ "&from=" ++ f
              else "https://desk.zoho.com/api/v1/agents?"))
          ++ "&fieldName=emailId&searchStr=" ++ emailID
      else
        (if limit ≠ "" then
          (if f ≠ "" then "https://desk.zoho.com/api/v1/agents?" ++ "&from=" ++ f
            else "https://desk.zoho.com/api/v1/agents?") ++ "&limit=" ++ limit
          else
            (if f ≠ "" then "https://desk.zoho.com/api/v1/agents?" ++ "&from=" ++ f
              else "https://desk.zoho.com/api/v1/agents?"))) = url := by
    rw [hurl]
    by_cases h1 : f = "" <;> by_cases h2 : limit = "" <;> by_cases h3 : emailID = "" <;>
      simp only [h1, h2, h3, ne_eq, not_true_eq_false, not_false_eq_true, if_true, if_false,
        String.append_assoc, String.append_empty]
  refine ⟨?_, ?_⟩
  · unfold GetAgents
    simp only []
    rw [hu, NewRequest_builds env "GET" url none hbuilds]
    simp only [Request.HeaderAdd, canonical_content_type, canonical_authorization,
      List.nil_append, List.cons_append]
  · intro h1 h2 h3
    subst h1 h2 h3
    subst hurl
    decide

/-- C3 on a search by e-mail address only: the one request that is sent. -/
theorem GetAgents_url_witness :
    (GetAgents (answering "") "tok" "" "" "a@b.c").sent
      = [⟨"GET", "https://desk.zoho.com/api/v1/agents?&fieldName=emailId&searchStr=a@b.c",
          [("Content-Type", "application/x-www-form-urlencoded"),
            ("Authorization", "Zoho-oauthtoken tok")],
          none⟩] :=
  (GetAgents_url (answering "") "tok" "" "" "a@b.c"
    "https://desk.zoho.com/api/v1/agents?&fieldName=emailId&searchStr=a@b.c"
    (by decide) (by decide)).1

/-- C3 fails as stated: for from = "1\t" (a tab after the cursor) no URL is
requested at all, because `http.NewRequest` makes no request from a URL with a
control character; the transport here accepts every request it is given. -/
theorem GetAgents_control_byte_no_request :
    (GetAgents (answering "") "tok" "1\t" "" "").sent = [] := by
  decide

/-! ## Reading back what `json.Marshal` wrote -/

theorem scan_append (s : Scanner) (a b : List Char) :
    scan s (a ++ b) = (scan s a).bind fun s1 => scan s1 b := by
  induction a generalizing s with
  | nil => simp [scan]
  | cons c cs ih =>
    simp only [List.cons_append, scan]
    cases step s c with
    | none => simp
    | some s1 => simpa using ih s1

theorem hexVal_hexDigit (d : Nat) (h : d < 16) : hexVal (hexDigit d) = some d := by
  interval_cases d <;> rfl

theorem scan_escape_u (acc : List Char) (p : Option Nat) (st : List Frame) (a b c d : Char)
    (x y z w : Nat) (rest : List Char) (ha : hexVal a = some x) (hb : hexVal b = some y)
    (hc : hexVal c = some z) (hd : hexVal d = some w) :
    scan ⟨.inString acc p, st⟩ ('\\' :: 'u' :: a :: b :: c :: d :: rest)
      = scan ⟨.inString (escapeRune acc p (((x * 16 + y) * 16 + z) * 16 + w)).1
          (escapeRune acc p (((x * 16 + y) * 16 + z) * 16 + w)).2, st⟩ rest := by
  simp [scan, step, ha, hb, hc, hd]

theorem escapeRune_plain (acc : List Char) (n : Nat) (h : n < 0xD800) :
    escapeRune acc none n = (Char.ofNat n :: acc, none) := by
  unfold escapeRune
  have h1 : ¬ (0xDC00 ≤ n) := by omega
  have h2 : ¬ (0xD800 ≤ n) := by omega
  simp [h1, h2, flush]

theorem char_eq_of_toNat (c : Char) (n : Nat) (h : c.toNat = n) : c = Char.ofNat n := by
  rw [← h, Char.ofNat_toNat]

theorem scan_encodeChar (acc : List Char) (st : List Frame) (c : Char) (rest : List Char) :
    scan ⟨.inString acc none, st⟩ (encodeChar c ++ rest)
      = scan ⟨.inString (c :: acc) none, st⟩ rest := by
  unfold encodeChar
  split
  · rename_i h; subst h
    simp [scan, step, flush]
  · rename_i h1
    split
    · rename_i h; subst h
      simp [scan, step, flush]
    · rename_i h2
      split
      · rename_i h; have := char_eq_of_toNat c _ h; subst this
        simp [scan, step, flush]
      · split
        · rename_i h; have := char_eq_of_toNat c _ h; subst this
          simp [scan, step, flush]
        · split
          · rename_i h; have := char_eq_of_toNat c _ h; subst this
            simp [scan, step, flush]
          · split
            · rename_i h; have := char_eq_of_toNat c _ h; subst this
              simp [scan, step, flush]
            · split
              · rename_i h; have := char_eq_of_toNat c _ h; subst this
                simp [scan, step, flush]
              · split
                · rename_i h
                  have hn : c.toNat < 64 := by
                    simp only [Bool.or_eq_true, decide_eq_true_eq] at h
                    rcases h with ((h | h) | h) | h
                    · omega
                    · subst h; decide
                    · subst h; decide
                    · subst h; decide
                  simp only [List.cons_append, List.nil_append]
                  rw [scan_escape_u acc none st '0' '0' _ _ 0 0 (c.toNat / 16) (c.toNat % 16) rest
                    rfl rfl (hexVal_hexDigit _ (by omega)) (hexVal_hexDigit _ (by omega))]
                  have e : ((0 * 16 + 0) * 16 + c.toNat / 16) * 16 + c.toNat % 16 = c.toNat := by
                    omega
                  rw [e, escapeRune_plain _ _ (by omega), Char.ofNat_toNat]
                · rename_i h3
                  split
                  · rename_i h
                    simp only [Bool.or_eq_true, decide_eq_true_eq] at h
                    rcases h with h | h
                    · have := char_eq_of_toNat c _ h; subst this
                      simp only [List.cons_append, List.nil_append]
                      rw [scan_escape_u acc none st '2' '0' '2' (hexDigit ((Char.ofNat 0x2028).toNat % 16))
                        2 0 2 8 rest rfl rfl rfl rfl,
                        escapeRune_plain _ _ (by omega)]
                    · have := char_eq_of_toNat c _ h; subst this
                      simp only [List.cons_append, List.nil_append]
                      rw [scan_escape_u acc none st '2' '0' '2' (hexDigit ((Char.ofNat 0x2029).toNat % 16))
                        2 0 2 9 rest rfl rfl rfl rfl,
                        escapeRune_plain _ _ (by omega)]
                  · rename_i h4
                    simp only [Bool.or_eq_true, decide_eq_true_eq, not_or] at h3
                    have h5 : ¬ c.toNat < 32 := h3.1.1.1
                    simp [scan, step, flush, h1, h2, h5]


theorem scan_encodeChars (acc : List Char) (st : List Frame) (cs rest : List Char) :
    scan ⟨.inString acc none, st⟩ (encodeChars cs ++ rest)
      = scan ⟨.inString (cs.reverse ++ acc) none, st⟩ rest := by
  induction cs generalizing acc with
  | nil => rfl
  | cons c cs ih =>
    simp only [encodeChars, List.append_assoc, scan_encodeChar, ih, List.reverse_cons,
      List.singleton_append]

/-- A quoted string read from a state in which the opening quote starts a string. -/
theorem scan_encodeString (st : List Frame) (s : String) (rest : List Char) :
    scan ⟨.inString [] none, st⟩ (encodeChars s.toList ++ '"' :: rest)
      = (complete (.str s) st).bind fun s1 => scan s1 rest := by
  rw [scan_encodeChars]
  simp [scan, step, flush]

theorem char_range (c : Char) :
    c.toNat < 0xD800 ∨ (0xDFFF < c.toNat ∧ c.toNat < 0x110000) := by
  have := c.valid
  simpa [UInt32.isValidChar, Nat.isValidChar, Char.toNat] using this

theorem decodeRune_one (n : Nat) (rest : List Nat) (h : n < 0x80) :
    decodeRune n rest = some (Char.ofNat n, 1) := by
  unfold decodeRune
  rw [if_pos h]

theorem decodeRune_two (n : Nat) (rest : List Nat) (h1 : 0x80 ≤ n) (h2 : n < 0x800) :
    decodeRune (0xC0 + n / 0x40) ((0x80 + n % 0x40) :: rest) = some (Char.ofNat n, 2) := by
  have a1 : ¬ (0xC0 + n / 0x40 < 0x80) := by omega
  have a2 : ¬ (0xC0 + n / 0x40 < 0xC2) := by omega
  have a3 : 0xC0 + n / 0x40 < 0xE0 := by omega
  have hc : (decide (0x80 ≤ 0x80 + n % 0x40) && decide (0x80 + n % 0x40 ≤ 0xBF)) = true := by
    rw [Bool.and_eq_true, decide_eq_true_eq, decide_eq_true_eq]
    omega
  have e1 : (0xC0 + n / 0x40) % 0x20 * 0x40 + (0x80 + n % 0x40) % 0x40 = n := by omega
  unfold decodeRune
  rw [if_neg a1, if_neg a2, if_pos a3]
  dsimp only
  rw [if_pos hc, e1]

theorem decodeRune_three (n : Nat) (rest : List Nat) (h1 : 0x800 ≤ n) (h2 : n < 0x10000)
    (h3 : n < 0xD800 ∨ 0xDFFF < n) :
    decodeRune (0xE0 + n / 0x1000) ((0x80 + n / 0x40 % 0x40) :: (0x80 + n % 0x40) :: rest)
      = some (Char.ofNat n, 3) := by
  have a1 : ¬ (0xE0 + n / 0x1000 < 0x80) := by omega
  have a2 : ¬ (0xE0 + n / 0x1000 < 0xC2) := by omega
  have a3 : ¬ (0xE0 + n / 0x1000 < 0xE0) := by omega
  have a4 : 0xE0 + n / 0x1000 < 0xF0 := by omega
  have hc : (decide ((if 0xE0 + n / 0x1000 = 0xE0 then 0xA0 else 0x80) ≤ 0x80 + n / 0x40 % 0x40)
      && decide (0x80 + n / 0x40 % 0x40 ≤ (if 0xE0 + n / 0x1000 = 0xED then 0x9F else 0xBF))
      && decide (0x80 ≤ 0x80 + n % 0x40) && decide (0x80 + n % 0x40 ≤ 0xBF)) = true := by
    simp only [Bool.and_eq_true, decide_eq_true_eq]
    refine ⟨⟨⟨?_, ?_⟩, ?_⟩, ?_⟩
    · split <;> omega
    · split <;> omega
    · omega
    · omega
  have e1 : (0xE0 + n / 0x1000) % 0x10 * 0x1000 + (0x80 + n / 0x40 % 0x40) % 0x40 * 0x40
      + (0x80 + n % 0x40) % 0x40 = n := by omega
  unfold decodeRune
  rw [if_neg a1, if_neg a2, if_neg a3, if_pos a4]
  dsimp only
  rw [if_pos hc, e1]

theorem decodeRune_four (n : Nat) (rest : List Nat) (h1 : 0x10000 ≤ n) (h2 : n < 0x110000) :
    decodeRune (0xF0 + n / 0x40000)
        ((0x80 + n / 0x1000 % 0x40) :: (0x80 + n / 0x40 % 0x40) :: (0x80 + n % 0x40) :: rest)
      = some (Char.ofNat n, 4) := by
  have a1 : ¬ (0xF0 + n / 0x40000 < 0x80) := by omega
  have a2 : ¬ (0xF0 + n / 0x40000 < 0xC2) := by omega
  have a3 : ¬ (0xF0 + n / 0x40000 < 0xE0) := by omega
  have a4 : ¬ (0xF0 + n / 0x40000 < 0xF0) := by omega
  have a5 : 0xF0 + n / 0x40000 < 0xF5 := by omega
  have hc : (decide ((if 0xF0 + n / 0x40000 = 0xF0 then 0x90 else 0x80)
        ≤ 0x80 + n / 0x1000 % 0x40)
      && decide (0x80 + n / 0x1000 % 0x40 ≤ (if 0xF0 + n / 0x40000 = 0xF4 then 0x8F else 0xBF))
      && decide (0x80 ≤ 0x80 + n / 0x40 % 0x40) && decide (0x80 + n / 0x40 % 0x40 ≤ 0xBF)
      && decide (0x80 ≤ 0x80 + n % 0x40) && decide (0x80 + n % 0x40 ≤ 0xBF)) = true := by
    simp only [Bool.and_eq_true, decide_eq_true_eq]
    refine ⟨⟨⟨⟨⟨?_, ?_⟩, ?_⟩, ?_⟩, ?_⟩, ?_⟩
    · split <;> omega
    · split <;> omega
    · omega
    · omega
    · omega
    · omega
  have e1 : (0xF0 + n / 0x40000) % 0x08 * 0x40000 + (0x80 + n / 0x1000 % 0x40) % 0x40 * 0x1000
      + (0x80 + n / 0x40 % 0x40) % 0x40 * 0x40 + (0x80 + n % 0x40) % 0x40 = n := by omega
  unfold decodeRune
  rw [if_neg a1, if_neg a2, if_neg a3, if_neg a4, if_pos a5]
  dsimp only
  rw [if_pos hc, e1]

/-- Decoding the UTF-8 encoding of a character gives the character back, and
the rest of its bytes is passed over. -/
theorem decode_utf8Bytes (c : Char) (rest : List Nat) :
    ∃ b0 more size, utf8Bytes c = b0 :: more ∧ more.length = size - 1 ∧
      decodeRune b0 (more ++ rest) = some (c, size) := by
  have hv := char_range c
  unfold utf8Bytes
  simp only []
  split
  · rename_i h
    exact ⟨_, [], 1, rfl, rfl, by rw [List.nil_append, decodeRune_one _ _ h, Char.ofNat_toNat]⟩
  · split
    · rename_i h1 h2
      exact ⟨_, _, 2, rfl, rfl, by
        rw [List.singleton_append, decodeRune_two _ _ (by omega) h2, Char.ofNat_toNat]⟩
    · split
      · rename_i h1 h2 h3
        exact ⟨_, _, 3, rfl, rfl, by
          rw [List.cons_append, List.singleton_append,
            decodeRune_three _ _ (by omega) h3 (by omega), Char.ofNat_toNat]⟩
      · rename_i h1 h2 h3
        exact ⟨_, _, 4, rfl, rfl, by
          rw [List.cons_append, List.cons_append, List.singleton_append,
            decodeRune_four _ _ (by omega) (by omega), Char.ofNat_toNat]⟩

theorem runesFrom_skip (more rest : List Nat) :
    runesFrom more.length (more ++ rest) = runesFrom 0 rest := by
  induction more with
  | nil => rfl
  | cons b bs ih => simpa [runesFrom] using ih

theorem runesFrom_utf8Bytes (c : Char) (rest : List Nat) :
    runesFrom 0 (utf8Bytes c ++ rest) = c :: runesFrom 0 rest := by
  obtain ⟨b0, more, size, hb, hl, hd⟩ := decode_utf8Bytes c rest
  have hz : runesFrom 0 (b0 :: (more ++ rest))
      = c :: runesFrom (size - 1) (more ++ rest) := by
    rw [runesFrom, hd]
  rw [hb, List.cons_append, hz, ← hl, runesFrom_skip]

theorem runesFrom_flatMap (cs : List Char) :
    runesFrom 0 (cs.flatMap utf8Bytes) = cs := by
  induction cs with
  | nil => rfl
  | cons c cs ih => rw [List.flatMap_cons, runesFrom_utf8Bytes, ih]

/-- A Go string that holds the UTF-8 encoding of a text has that text as its
runes. -/
theorem runes_ofString (s : String) : (GoString.ofString s).runes = s := by
  unfold GoString.runes GoString.ofString
  rw [runesFrom_flatMap]
  rfl


theorem escapeRune_replacement (acc : List Char) :
    escapeRune acc none (((15 * 16 + 15) * 16 + 15) * 16 + 13)
      = (Char.ofNat 0xFFFD :: acc, none) := by
  simp [escapeRune, flush]

theorem scan_encodeBytes (st : List Frame) (rest : List Char) :
    ∀ (bs : List Nat) (k : Nat) (acc : List Char),
      scan ⟨.inString acc none, st⟩ (encodeBytes k bs ++ rest)
        = scan ⟨.inString ((runesFrom k bs).reverse ++ acc) none, st⟩ rest
  | [], k, acc => by
    rw [encodeBytes, runesFrom]
    rfl
  | b :: bs, k + 1, acc => by
    rw [encodeBytes, runesFrom]
    exact scan_encodeBytes st rest bs k acc
  | b :: bs, 0, acc => by
    rw [encodeBytes, runesFrom]
    cases decodeRune b bs with
    | none =>
      simp only [List.cons_append, List.nil_append]
      rw [scan_escape_u acc none st 'f' 'f' 'f' 'd' 15 15 15 13 _ rfl rfl rfl rfl,
        escapeRune_replacement, scan_encodeBytes st rest bs 0 _]
      simp
    | some p =>
      obtain ⟨c, size⟩ := p
      simp only [List.append_assoc]
      rw [scan_encodeChar, scan_encodeBytes st rest bs (size - 1) _]
      simp

/-- A quoted Go string read from a state in which the opening quote was just
read: its runes, with U+FFFD for every invalid byte. -/
theorem scan_encodeGoString (st : List Frame) (v : GoString) (rest : List Char) :
    scan ⟨.inString [] none, st⟩ (encodeBytes 0 v.bytes ++ '"' :: rest)
      = (complete (.str v.runes) st).bind fun s1 => scan s1 rest := by
  rw [scan_encodeBytes]
  simp [scan, step, flush, GoString.runes]

theorem scan_member (m : Mode) (hm : m = .beginString ∨ m = .beginStringOrEmpty)
    (done : List (String × Json)) (st : List Frame) (k : String) (v : GoString)
    (rest : List Char) :
    scan ⟨m, .obj done none :: st⟩ (encodeString k ++ ':' :: (encodeGoString v ++ rest))
      = scan ⟨.endValue, .obj ((k, .str v.runes) :: done) none :: st⟩ rest := by
  have h1 : scan ⟨m, .obj done none :: st⟩ (encodeString k ++ ':' :: (encodeGoString v ++ rest))
      = scan ⟨.inString [] none, .obj done none :: st⟩
          (encodeChars k.toList ++ '"' :: ':' :: (encodeGoString v ++ rest)) := by
    rcases hm with rfl | rfl <;> simp [encodeString, scan, step, isSpace]
  rw [h1, scan_encodeString]
  simp only [complete, Option.some_bind]
  have h2 : scan ⟨.endValue, .obj done (some k) :: st⟩ (':' :: (encodeGoString v ++ rest))
      = scan ⟨.inString [] none, .obj done (some k) :: st⟩
          (encodeBytes 0 v.bytes ++ '"' :: rest) := by
    simp [encodeGoString, scan, step, stepEnd, stepBeginValue, isSpace]
  rw [h2, scan_encodeGoString]
  simp only [complete, Option.some_bind]

theorem scan_members (m : Mode) (hm : m = .beginString ∨ m = .beginStringOrEmpty)
    (st : List Frame) (rest : List Char) :
    ∀ (ms : List (String × GoString)) (done : List (String × Json)), ms ≠ [] →
      scan ⟨m, .obj done none :: st⟩ (encodeMembers ms ++ rest)
        = scan ⟨.endValue,
            .obj ((ms.map fun e => (e.1, Json.str e.2.runes)).reverse ++ done) none :: st⟩ rest
  | [], _, h => absurd rfl h
  | [(k, v)], done, _ => by
    simp only [encodeMembers, List.append_assoc, List.cons_append]
    rw [scan_member m hm]
    simp
  | (k, v) :: e :: ms, done, _ => by
    simp only [encodeMembers, List.append_assoc, List.cons_append]
    rw [scan_member m hm]
    have h3 : scan ⟨.endValue, .obj ((k, Json.str v.runes) :: done) none :: st⟩
        (',' :: (encodeMembers (e :: ms) ++ rest))
        = scan ⟨.beginString, .obj ((k, Json.str v.runes) :: done) none :: st⟩
          (encodeMembers (e :: ms) ++ rest) := by
      simp [scan, step, stepEnd, isSpace]
    rw [h3, scan_members .beginString (Or.inl rfl) st rest (e :: ms) _ (List.cons_ne_nil _ _)]
    simp

/-- Reading back what `json.Marshal` wrote for a `map[string]string`: an object
with one string member per entry, in increasing key order, each holding the
runes of the value. -/
theorem parseJSON_Marshal (m : List (String × GoString)) :
    parseJSON (Marshal m)
      = some (.obj ((sortEntries m).map fun e => (e.1, Json.str e.2.runes))) := by
  unfold parseJSON Marshal
  have h0 : ∀ l : List Char, scan ⟨.beginValue, []⟩ ('{' :: l)
      = scan ⟨.beginStringOrEmpty, [.obj [] none]⟩ l := by
    intro l
    simp [scan, step, stepBeginValue, push, maxNestingDepth, isSpace]
  simp only [String.toList]
  rw [h0]
  by_cases hm : sortEntries m = []
  · rw [hm]
    simp [encodeMembers, scan, step, stepEnd, complete, eof, isSpace]
  · rw [scan_members .beginStringOrEmpty (Or.inr rfl) [] ['}'] _ [] hm]
    simp [scan, step, stepEnd, complete, eof, isSpace]

theorem sortEntries_agent (a d s : GoString) :
    sortEntries [("assigneeId", a), ("departmentId", d), ("status", s)]
      = [("assigneeId", a), ("departmentId", d), ("status", s)] := by
  have h1 : stringLess "departmentId" "status" = true := by decide
  have h2 : stringLess "assigneeId" "departmentId" = true := by decide
  simp only [sortEntries, insertEntry, h1, h2, if_true]

/-! ## C4, C5, C6: what the three updates send -/

/-- C5, as the code has it: for every access token, organization id, ticket id
and status such that `http.NewRequest` makes a request from the ticket URL,
UpdateTicketStatus hands exactly one request to the transport, a PATCH of
"https://desk.zoho.com/api/v1/tickets/"+ticketID, whose body, read back as
JSON, is an object with the single member `status`; the member holds the status
with every byte that is not part of a valid UTF-8 encoding replaced by U+FFFD,
which is the status itself when it is the UTF-8 encoding of a text. -/
theorem UpdateTicketStatus_request (env : Env) (authtoken orgID ticketID : String)
    (status : GoString)
    (hbuilds : env.builds ("https://desk.zoho.com/api/v1/tickets/" ++ ticketID) = true) :
    (UpdateTicketStatus env authtoken orgID ticketID status).sent
      = [⟨"PATCH", "https://desk.zoho.com/api/v1/tickets/" ++ ticketID,
          [("Content-Type", "application/json"), ("Orgid", orgID),
            ("Authorization", "Zoho-oauthtoken " ++ authtoken)],
          some (Marshal [("status", status)])⟩] ∧
    parseJSON (Marshal [("status", status)]) = some (.obj [("status", .str status.runes)]) ∧
    (∀ text : String, status = GoString.ofString text →
      parseJSON (Marshal [("status", status)]) = some (.obj [("status", .str text)])) := by
  have hp : parseJSON (Marshal [("status", status)])
      = some (.obj [("status", .str status.runes)]) := by
    rw [parseJSON_Marshal]
    rfl
  refine ⟨?_, hp, ?_⟩
  · unfold UpdateTicketStatus
    simp only []
    rw [NewRequest_builds env "PATCH" _ _ hbuilds]
    simp only [Request.HeaderAdd, canonical_content_type, canonical_orgId,
      canonical_authorization, List.nil_append, List.cons_append]
  · intro text ht
    rw [hp, ht, runes_ofString]

/-- C5 on a concrete update: the one request that is sent, and its body read
back. -/
theorem UpdateTicketStatus_request_witness :
    (UpdateTicketStatus (answering "") "tok" "org" "77" "Closed").sent
      = [⟨"PATCH", "https://desk.zoho.com/api/v1/tickets/77",
          [("Content-Type", "application/json"), ("Orgid", "org"),
            ("Authorization", "Zoho-oauthtoken tok")],
          some "\x7b\"status\":\"Closed\"\x7d"⟩] ∧
    parseJSON "\x7b\"status\":\"Closed\"\x7d" = some (.obj [("status", .str "Closed")]) :=
  ⟨(UpdateTicketStatus_request (answering "") "tok" "org" "77" "Closed" (by decide)).1.trans
      (by decide),
   (congrArg parseJSON (by decide)).trans
    ((UpdateTicketStatus_request (answering "") "tok" "org" "77" "Closed" (by decide)).2.2
      "Closed" rfl)⟩

/-- C5 fails as stated: for the ticket id "7\n7" no PATCH is sent, because
`http.NewRequest` makes no request from a URL with a control character (the
transport here accepts every request it is given); and for a status with the
bytes 0x61 0xFF 0x62, which are not valid UTF-8, the body holds the status "a",
U+FFFD, "b", whose bytes are not those given. -/
theorem UpdateTicketStatus_control_byte_no_request :
    (UpdateTicketStatus (answering "") "tok" "org" "7\n7" "Closed").sent = [] ∧
    (UpdateTicketStatus (answering "") "tok" "org" "77" ⟨[0x61, 0xFF, 0x62]⟩).sent.map
        (fun r => r.Body)
      = [some "\x7b\"status\":\"a\\ufffdb\"\x7d"] ∧
    parseJSON "\x7b\"status\":\"a\\ufffdb\"\x7d" = some (.obj [("status", .str "a\uFFFDb")]) ∧
    GoString.ofString "a\uFFFDb" ≠ ⟨[0x61, 0xFF, 0x62]⟩ :=
  ⟨by decide, by decide, by rfl, by decide⟩

/-- C4, as the code has it: for every access token, organization id and
UpdateTicketDetails value such that `http.NewRequest` makes a request from the
ticket URL, UpdateTicketAgent hands exactly one request to the transport, a
PATCH whose body, read back as JSON, is an object with exactly the three members
`assigneeId`, `departmentId` and `status`; the first two hold the AssigneeId and
the DepartmentId of the request with every byte that is not part of a valid
UTF-8 encoding replaced by U+FFFD, which are the values themselves (empty or
not) when they are UTF-8 encodings of texts, and `status` holds "Open" whatever
the inputs are. -/
theorem UpdateTicketAgent_request (env : Env) (authtoken orgID : String)
    (ticket : UpdateTicketDetails)
    (hbuilds : env.builds ("https://desk.zoho.com/api/v1/tickets/" ++ ticket.TicketId) = true) :
    (UpdateTicketAgent env authtoken orgID ticket).sent
      = [⟨"PATCH", "https://desk.zoho.com/api/v1/tickets/" ++ ticket.TicketId,
          [("Content-Type", "application/json"), ("Orgid", orgID),
            ("Authorization", "Zoho-oauthtoken " ++ authtoken)],
          some (Marshal [("assigneeId", ticket.AssigneeId),
            ("departmentId", ticket.DepartmentId), ("status", "Open")])⟩] ∧
    parseJSON (Marshal [("assigneeId", ticket.AssigneeId),
        ("departmentId", ticket.DepartmentId), ("status", "Open")])
      = some (.obj [("assigneeId", .str ticket.AssigneeId.runes),
          ("departmentId", .str ticket.DepartmentId.runes), ("status", .str "Open")]) ∧
    (∀ assignee department : String, ticket.AssigneeId = GoString.ofString assignee →
      ticket.DepartmentId = GoString.ofString department →
      parseJSON (Marshal [("assigneeId", ticket.AssigneeId),
          ("departmentId", ticket.DepartmentId), ("status", "Open")])
        = some (.obj [("assigneeId", .str assignee), ("departmentId", .str department),
            ("status", .str "Open")])) := by
  have hp : parseJSON (Marshal [("assigneeId", ticket.AssigneeId),
        ("departmentId", ticket.DepartmentId), ("status", "Open")])
      = some (.obj [("assigneeId", .str ticket.AssigneeId.runes),
          ("departmentId", .str ticket.DepartmentId.runes), ("status", .str "Open")]) := by
    rw [parseJSON_Marshal, sortEntries_agent]
    simp only [List.map_cons, List.map_nil]
    rw [show ((↑("Open" : String) : GoString)).runes = "Open" from runes_ofString "Open"]
  refine ⟨?_, hp, ?_⟩
  · unfold UpdateTicketAgent
    simp only []
    rw [NewRequest_builds env "PATCH" _ _ hbuilds]
    simp only [Request.HeaderAdd, canonical_content_type, canonical_orgId,
      canonical_authorization, List.nil_append, List.cons_append]
  · intro assignee department ha hd
    rw [hp, ha, hd, runes_ofString, runes_ofString]

/-- C4 on a reassignment to the agent "9" and on one with an empty assignee:
the bodies that are sent, and the first read back. -/
theorem UpdateTicketAgent_request_witness :
    (UpdateTicketAgent (answering "") "tok" "org" ⟨"77", "5", "9"⟩).sent.map (fun r => r.Body)
      = [some "\x7b\"assigneeId\":\"9\",\"departmentId\":\"5\",\"status\":\"Open\"\x7d"] ∧
    (UpdateTicketAgent (answering "") "tok" "org" ⟨"77", "5", ""⟩).sent.map (fun r => r.Body)
      = [some "\x7b\"assigneeId\":\"\",\"departmentId\":\"5\",\"status\":\"Open\"\x7d"] ∧
    parseJSON "\x7b\"assigneeId\":\"9\",\"departmentId\":\"5\",\"status\":\"Open\"\x7d"
      = some (.obj [("assigneeId", .str "9"), ("departmentId", .str "5"),
          ("status", .str "Open")]) :=
  ⟨(congrArg (List.map fun r => r.Body)
      (UpdateTicketAgent_request (answering "") "tok" "org" ⟨"77", "5", "9"⟩ (by decide)).1).trans
      (by decide),
   (congrArg (List.map fun r => r.Body)
      (UpdateTicketAgent_request (answering "") "tok" "org" ⟨"77", "5", ""⟩ (by decide)).1).trans
      (by decide),
   (congrArg parseJSON (by decide)).trans
    ((UpdateTicketAgent_request (answering "") "tok" "org" ⟨"77", "5", "9"⟩ (by decide)).2.2
      "9" "5" rfl rfl)⟩

/-- C4 fails as stated: for an AssigneeId with the bytes 0x61 0xFF 0x62, which
are not valid UTF-8, the body holds the assignee "a", U+FFFD, "b", whose bytes
are not those of the request. -/
theorem UpdateTicketAgent_invalid_byte_replaced :
    (UpdateTicketAgent (answering "") "tok" "org"
        ⟨"77", "5", ⟨[0x61, 0xFF, 0x62]⟩⟩).sent.map (fun r => r.Body)
      = [some
          "\x7b\"assigneeId\":\"a\\ufffdb\",\"departmentId\":\"5\",\"status\":\"Open\"\x7d"] ∧
    parseJSON "\x7b\"assigneeId\":\"a\\ufffdb\",\"departmentId\":\"5\",\"status\":\"Open\"\x7d"
      = some (.obj [("assigneeId", .str "a\uFFFDb"), ("departmentId", .str "5"),
          ("status", .str "Open")]) ∧
    GoString.ofString "a\uFFFDb" ≠ ⟨[0x61, 0xFF, 0x62]⟩ :=
  ⟨by decide, by rfl, by decide⟩

/-- C6, as the code has it: for every access token, organization id and
UpdateTicketDetails value such that `http.NewRequest` makes a request from the
move URL, UpdateTicketMove hands exactly one request to the transport, a POST
of "https://desk.zoho.com/api/v1/tickets/"+TicketId+"/move", which is the URL
of every request UpdateTicketAgent sends for the same ticket with "/move"
appended; its body, read back as JSON, is an object with the single member
`departmentId` (so no status member), which holds the DepartmentId of the
request with every byte that is not part of a valid UTF-8 encoding replaced by
U+FFFD, the DepartmentId itself when it is the UTF-8 encoding of a text; and the
whole call is the same whatever the AssigneeId is. -/
theorem UpdateTicketMove_request (env : Env) (authtoken orgID : String)
    (ticket : UpdateTicketDetails)
    (hbuilds : env.builds
      ("https://desk.zoho.com/api/v1/tickets/" ++ ticket.TicketId ++ "/move") = true) :
    (UpdateTicketMove env authtoken orgID ticket).sent
      = [⟨"POST", "https://desk.zoho.com/api/v1/tickets/" ++ ticket.TicketId ++ "/move",
          [("Content-Type", "application/json"), ("Orgid", orgID),
            ("Authorization", "Zoho-oauthtoken " ++ authtoken)],
          some (Marshal [("departmentId", ticket.DepartmentId)])⟩] ∧
    (∀ q ∈ (UpdateTicketAgent env authtoken orgID ticket).sent,
      "https://desk.zoho.com/api/v1/tickets/" ++ ticket.TicketId ++ "/move"
        = q.URL ++ "/move") ∧
    parseJSON (Marshal [("departmentId", ticket.DepartmentId)])
      = some (.obj [("departmentId", .str ticket.DepartmentId.runes)]) ∧
    (∀ department : String, ticket.DepartmentId = GoString.ofString department →
      parseJSON (Marshal [("departmentId", ticket.DepartmentId)])
        = some (.obj [("departmentId", .str department)])) ∧
    (∀ assignee : GoString,
      UpdateTicketMove env authtoken orgID { ticket with AssigneeId := assignee }
        = UpdateTicketMove env authtoken orgID ticket) := by
  have hp : parseJSON (Marshal [("departmentId", ticket.DepartmentId)])
      = some (.obj [("departmentId", .str ticket.DepartmentId.runes)]) := by
    rw [parseJSON_Marshal]
    rfl
  refine ⟨?_, ?_, hp, ?_, fun _ => rfl⟩
  · unfold UpdateTicketMove
    simp only []
    rw [NewRequest_builds env "POST" _ _ hbuilds]
    simp only [Request.HeaderAdd, canonical_content_type, canonical_orgId,
      canonical_authorization, List.nil_append, List.cons_append]
  · intro q hq
    unfold UpdateTicketAgent at hq
    simp only [] at hq
    split at hq
    · simp at hq
    · rename_i reqs1 hreq1
      have := NewRequest_some _ _ _ _ _ hreq1
      subst this
      simp only [List.mem_singleton] at hq
      subst hq
      rfl
  · intro department hd
    rw [hp, hd, runes_ofString]

/-- C6 on a concrete move: the one request that is sent, and its body read
back. -/
theorem UpdateTicketMove_request_witness :
    (UpdateTicketMove (answering "") "tok" "org" ⟨"77", "5", "9"⟩).sent
      = [⟨"POST", "https://desk.zoho.com/api/v1/tickets/77/move",
          [("Content-Type", "application/json"), ("Orgid", "org"),
            ("Authorization", "Zoho-oauthtoken tok")],
          some "\x7b\"departmentId\":\"5\"\x7d"⟩] ∧
    parseJSON "\x7b\"departmentId\":\"5\"\x7d" = some (.obj [("departmentId", .str "5")]) :=
  ⟨(UpdateTicketMove_request (answering "") "tok" "org" ⟨"77", "5", "9"⟩ (by decide)).1.trans
      (by decide),
   (congrArg parseJSON (by decide)).trans
    ((UpdateTicketMove_request (answering "") "tok" "org" ⟨"77", "5", "9"⟩ (by decide)).2.2.2.1
      "5" rfl)⟩

/-- C6 fails as stated: for the TicketId "7\n7" no request is sent to the move
URL, because `http.NewRequest` makes no request from a URL with a control
character (the transport here accepts every request it is given); and for a
DepartmentId with the bytes 0x35 0xFF, which are not valid UTF-8, the body
holds the department "5", U+FFFD, whose bytes are not those of the request. -/
theorem UpdateTicketMove_control_byte_no_request :
    (UpdateTicketMove (answering "") "tok" "org" ⟨"7\n7", "5", "9"⟩).sent = [] ∧
    (UpdateTicketMove (answering "") "tok" "org" ⟨"77", ⟨[0x35, 0xFF]⟩, "9"⟩).sent.map
        (fun r => r.Body)
      = [some "\x7b\"departmentId\":\"5\\ufffd\"\x7d"] ∧
    parseJSON "\x7b\"departmentId\":\"5\\ufffd\"\x7d"
      = some (.obj [("departmentId", .str "5\uFFFD")]) ∧
    GoString.ofString "5\uFFFD" ≠ ⟨[0x35, 0xFF]⟩ :=
  ⟨by decide, by decide, by rfl, by decide⟩

/-! ## C7, C8: bodies that fit -/

theorem lastField_mem (names : List String) (i : Nat) :
    ∀ (ms : List (String × Json)) (x : Json), lastField names i ms = some x →
      ∃ k, (k, x) ∈ ms ∧ fieldIndex names k = some i
  | [], _, h => by simp [lastField] at h
  | (k, j) :: ms, x, h => by
    unfold lastField at h
    cases hl : lastField names i ms with
    | some y =>
      simp only [hl, Option.some.injEq] at h
      subst h
      obtain ⟨k1, hk1, hi1⟩ := lastField_mem names i ms y hl
      exact ⟨k1, List.mem_cons_of_mem _ hk1, hi1⟩
    | none =>
      simp only [hl] at h
      split at h
      · rename_i hk
        cases h
        exact ⟨k, List.mem_cons_self _ _, hk⟩
      · cases h

theorem holds_string (j : Json) (h : holds .string j = true) : ∃ s, j = .str s := by
  cases j <;> simp [holds] at h
  exact ⟨_, rfl⟩

theorem holds_bool (j : Json) (h : holds .bool j = true) : ∃ b, j = .bool b := by
  cases j <;> simp [holds] at h
  exact ⟨_, rfl⟩

theorem holds_int (j : Json) (h : holds .int j = true) :
    ∃ lit n, j = .num lit ∧ parseInt lit = some n := by
  cases j <;> simp [holds] at h
  rename_i lit
  cases hp : parseInt lit with
  | none => simp [hp] at h
  | some n => exact ⟨lit, n, rfl, hp⟩

theorem Typed.of_check {names : List String} {field : Nat → Shape}
    {ms : List (String × Json)} (h : checkTyped names field ms = true) :
    Typed names field ms := by
  intro m hm i hi
  have := (List.all_eq_true.mp h) m hm
  simpa [hi] using this

theorem Typed.tail {names : List String} {field : Nat → Shape} {m : String × Json}
    {ms : List (String × Json)} (h : Typed names field (m :: ms)) : Typed names field ms :=
  fun x hx => h x (List.mem_cons_of_mem _ hx)

theorem decodeMembers_no_error {α : Type} (names : List String) (field : Nat → Shape)
    (set : Nat → Decoder α)
    (hset : ∀ i j v, holds (field i) j = true → (set i j v).2 = none) :
    ∀ (ms : List (String × Json)) (v : α), Typed names field ms →
      (decodeMembers names set ms v).2 = none
  | [], _, _ => rfl
  | (k, j) :: ms, v, h => by
    unfold decodeMembers
    cases hi : fieldIndex names k with
    | none => exact decodeMembers_no_error names field set hset ms v h.tail
    | some i =>
      simp only []
      rw [hset i j v (h (k, j) (List.mem_cons_self _ _) i hi),
        decodeMembers_no_error names field set hset ms _ h.tail]
      rfl

theorem decodeMembers_string_field {α : Type} (names : List String) (field : Nat → Shape)
    (set : Nat → Decoder α) (i0 : Nat) (get : α → String) (hfield : field i0 = .string)
    (hother : ∀ i j v, i ≠ i0 → get (set i j v).1 = get v)
    (hself : ∀ s v, get (set i0 (.str s) v).1 = s) :
    ∀ (ms : List (String × Json)) (v : α), Typed names field ms →
      get (decodeMembers names set ms v).1 = stringOr (get v) (lastField names i0 ms)
  | [], _, _ => rfl
  | (k, j) :: ms, v, h => by
    have ih := decodeMembers_string_field names field set i0 get hfield hother hself ms
    have hrest : ∀ x, lastField names i0 ms = some x → ∃ s, x = .str s := by
      intro x hx
      obtain ⟨k1, hk1, hi1⟩ := lastField_mem names i0 ms x hx
      have := h.tail (k1, x) hk1 i0 hi1
      rw [hfield] at this
      exact holds_string x this
    unfold decodeMembers lastField
    cases hi : fieldIndex names k with
    | none =>
      simp only [reduceCtorEq, if_false]
      rw [ih v h.tail]
      cases lastField names i0 ms <;> rfl
    | some i =>
      simp only []
      rw [ih _ h.tail]
      by_cases hii : i = i0
      · subst hii
        have hj := h (k, j) (List.mem_cons_self _ _) i hi
        rw [hfield] at hj
        obtain ⟨s, rfl⟩ := holds_string j hj
        rw [hself]
        cases hl : lastField names i ms with
        | none => simp [stringOr]
        | some x =>
          obtain ⟨s1, rfl⟩ := hrest x hl
          simp [stringOr]
      · rw [hother i j v hii]
        have : (some i = some i0) = False := by simp [hii]
        simp only [this, if_false]
        cases lastField names i0 ms <;> rfl

theorem decodeMembers_bool_field {α : Type} (names : List String) (field : Nat → Shape)
    (set : Nat → Decoder α) (i0 : Nat) (get : α → Bool) (hfield : field i0 = .bool)
    (hother : ∀ i j v, i ≠ i0 → get (set i j v).1 = get v)
    (hself : ∀ b v, get (set i0 (.bool b) v).1 = b) :
    ∀ (ms : List (String × Json)) (v : α), Typed names field ms →
      get (decodeMembers names set ms v).1 = boolOr (get v) (lastField names i0 ms)
  | [], _, _ => rfl
  | (k, j) :: ms, v, h => by
    have ih := decodeMembers_bool_field names field set i0 get hfield hother hself ms
    have hrest : ∀ x, lastField names i0 ms = some x → ∃ b, x = .bool b := by
      intro x hx
      obtain ⟨k1, hk1, hi1⟩ := lastField_mem names i0 ms x hx
      have := h.tail (k1, x) hk1 i0 hi1
      rw [hfield] at this
      exact holds_bool x this
    unfold decodeMembers lastField
    cases hi : fieldIndex names k with
    | none =>
      simp only [reduceCtorEq, if_false]
      rw [ih v h.tail]
      cases lastField names i0 ms <;> rfl
    | some i =>
      simp only []
      rw [ih _ h.tail]
      by_cases hii : i = i0
      · subst hii
        have hj := h (k, j) (List.mem_cons_self _ _) i hi
        rw [hfield] at hj
        obtain ⟨b, rfl⟩ := holds_bool j hj
        rw [hself]
        cases hl : lastField names i ms with
        | none => simp [boolOr]
        | some x =>
          obtain ⟨b1, rfl⟩ := hrest x hl
          simp [boolOr]
      · rw [hother i j v hii]
        have : (some i = some i0) = False := by simp [hii]
        simp only [this, if_false]
        cases lastField names i0 ms <;> rfl


theorem set_no_error_OAuthToken (i : Nat) (j : Json) (v : OAuthToken)
    (h : holds (OAuthToken.fieldShape i) j = true) : (OAuthToken.set i j v).2 = none := by
  rcases i with _ | _ | _ | i
  · obtain ⟨s, rfl⟩ := holds_string j h; rfl
  · obtain ⟨s, rfl⟩ := holds_string j h; rfl
  · obtain ⟨lit, n, rfl, hn⟩ := holds_int j h
    simp [OAuthToken.set, decodeInt, hn]
  · rfl

theorem decode_fitting_OAuthToken (ms : List (String × Json)) (tok : String)
    (htyped : Typed OAuthToken.names OAuthToken.fieldShape ms)
    (htok : lastField OAuthToken.names 0 ms = some (.str tok)) :
    ∃ v, OAuthToken.decode (.obj ms) {} = (v, none) ∧ v.Accesstoken = tok := by
  refine ⟨(decodeMembers OAuthToken.names OAuthToken.set ms {}).1, ?_, ?_⟩
  · have := decodeMembers_no_error _ _ _ set_no_error_OAuthToken ms {} htyped
    show decodeMembers OAuthToken.names OAuthToken.set ms {} = _
    rw [← this]
  · have := decodeMembers_string_field OAuthToken.names OAuthToken.fieldShape OAuthToken.set 0
      (fun v => v.Accesstoken) rfl
      (by
        intro i j v hi
        rcases i with _ | _ | _ | i
        · exact absurd rfl hi
        · rfl
        · rfl
        · rfl)
      (fun s v => rfl) ms {} htyped
    refine this.trans ?_
    rw [htok]
    rfl

/-- C8, as the code has it: when the transport succeeded and the body is a JSON
object in which every member whose key selects `access_token` or `token_type`
(exactly, or else case-insensitively) holds a string and every member whose key
selects `expires_in` holds an integer literal within the range of `int`, and
the last member selecting `access_token` holds the string `tok`, GetOAuthToken
returns `tok` with a nil error, whatever `token_type` and `expires_in` hold. -/
theorem GetOAuthToken_returns_access_token (env : Env) (params : Params) (body : String)
    (ms : List (String × Json)) (tok : String)
    (h : Answered env (GetOAuthToken env params) body)
    (hparse : parseJSON body = some (.obj ms))
    (htyped : Typed OAuthToken.names OAuthToken.fieldShape ms)
    (htok : lastField OAuthToken.names 0 ms = some (.str tok)) :
    (GetOAuthToken env params).result = .returned tok none := by
  obtain ⟨v, hv, hacc⟩ := decode_fitting_OAuthToken ms tok htyped htok
  rw [GetOAuthToken_answered env params body h]
  unfold tokenResult Unmarshal
  rw [hparse]
  simp only [hv, Option.map_none']
  rw [hacc]

/-- C8 on the body
`{"access_token":"abc","token_type":"Bearer","expires_in":3600}`: the token
returned is "abc". -/
theorem GetOAuthToken_returns_access_token_witness :
    (GetOAuthToken
      (answering "\x7b\"access_token\":\"abc\",\"token_type\":\"Bearer\",\"expires_in\":3600\x7d")
      { AthURL := "https://accounts.zoho.com", OauthGenerateTokenRequestSlug := "/oauth/v2/token",
        RefreshToken := "r" }).result = .returned "abc" none :=
  GetOAuthToken_returns_access_token _ _ _
    [("access_token", .str "abc"), ("token_type", .str "Bearer"), ("expires_in", .num "3600")]
    "abc" (answering_answered _ _ (by decide)) (by rfl)
    (Typed.of_check (by decide))
    (by rfl)

/-- C8 fails as stated: the body
`{"access_token":"abc","expires_in":9223372036854775808}` is a JSON object with
a string `access_token` and an integer `expires_in`, and GetOAuthToken returns
an empty token with a non-nil error, because the integer does not fit `int`. -/
theorem GetOAuthToken_large_expires_in_error :
    parseJSON "\x7b\"access_token\":\"abc\",\"expires_in\":9223372036854775808\x7d"
      = some (.obj [("access_token", .str "abc"), ("expires_in", .num "9223372036854775808")]) ∧
    Answered (answering "\x7b\"access_token\":\"abc\",\"expires_in\":9223372036854775808\x7d")
      (GetOAuthToken
        (answering "\x7b\"access_token\":\"abc\",\"expires_in\":9223372036854775808\x7d") {})
      "\x7b\"access_token\":\"abc\",\"expires_in\":9223372036854775808\x7d" ∧
    (GetOAuthToken
        (answering "\x7b\"access_token\":\"abc\",\"expires_in\":9223372036854775808\x7d") {}).result
      = .returned "" (some (.jsonFailed (.type ⟨"number 9223372036854775808"⟩))) :=
  ⟨by rfl, answering_answered _ _ (by decide), by rfl⟩


theorem set_no_error_UpdateTicketResponse (i : Nat) (j : Json) (v : UpdateTicketResponse)
    (h : holds (UpdateTicketResponse.fieldShape i) j = true) :
    (UpdateTicketResponse.set i j v).2 = none := by
  rcases i with _ | _ | _ | _ | _ | _ | _ | _ | _ | i
  case succ.succ.succ.succ.zero => obtain ⟨b, rfl⟩ := holds_bool j h; rfl
  case succ.succ.succ.succ.succ.succ.succ.succ.succ => rfl
  all_goals obtain ⟨s, rfl⟩ := holds_string j h; rfl

theorem UpdateTicketResponse.eq_of_fields (a b : UpdateTicketResponse)
    (h0 : a.TicketNumber = b.TicketNumber) (h1 : a.ModifiedTime = b.ModifiedTime)
    (h2 : a.StatusType = b.StatusType) (h3 : a.DepartmentId = b.DepartmentId)
    (h4 : a.IsDeleted = b.IsDeleted) (h5 : a.Id = b.Id) (h6 : a.AssigneeId = b.AssigneeId)
    (h7 : a.Status = b.Status) (h8 : a.ErrorMsg = b.ErrorMsg) : a = b := by
  cases a; cases b; simp_all

theorem decode_fitting_UpdateTicketResponse (ms : List (String × Json))
    (htyped : Typed UpdateTicketResponse.names UpdateTicketResponse.fieldShape ms) :
    UpdateTicketResponse.decode (.obj ms) {} = (UpdateTicketResponse.mirror ms, none) := by
  have herr := decodeMembers_no_error _ _ _ set_no_error_UpdateTicketResponse ms {} htyped
  have hs : ∀ (i0 : Nat) (get : UpdateTicketResponse → String),
      UpdateTicketResponse.fieldShape i0 = .string →
      (∀ i (j : Json) v, i ≠ i0 → get (UpdateTicketResponse.set i j v).1 = get v) →
      (∀ s v, get (UpdateTicketResponse.set i0 (.str s) v).1 = s) →
      get (decodeMembers UpdateTicketResponse.names UpdateTicketResponse.set ms {}).1
        = stringOr (get {}) (lastField UpdateTicketResponse.names i0 ms) :=
    fun i0 get hf ho hse =>
      decodeMembers_string_field UpdateTicketResponse.names UpdateTicketResponse.fieldShape
        UpdateTicketResponse.set i0 get hf ho hse ms {} htyped
  have hb := decodeMembers_bool_field UpdateTicketResponse.names
    UpdateTicketResponse.fieldShape UpdateTicketResponse.set 4 (fun v => v.IsDeleted) rfl
    (by
      intro i j v hi
      rcases i with _ | _ | _ | _ | _ | _ | _ | _ | _ | i <;> first | rfl | exact absurd rfl hi)
    (fun b v => rfl) ms {} htyped
  show decodeMembers UpdateTicketResponse.names UpdateTicketResponse.set ms {} = _
  refine Prod.ext ?_ herr
  refine UpdateTicketResponse.eq_of_fields _ _ ?_ ?_ ?_ ?_ hb ?_ ?_ ?_ ?_
  · exact hs 0 (fun v => v.TicketNumber) rfl
      (by
        intro i j v hi
        rcases i with _ | _ | _ | _ | _ | _ | _ | _ | _ | i <;>
          first | rfl | exact absurd rfl hi)
      (fun s v => rfl)
  · exact hs 1 (fun v => v.ModifiedTime) rfl
      (by
        intro i j v hi
        rcases i with _ | _ | _ | _ | _ | _ | _ | _ | _ | i <;>
          first | rfl | exact absurd rfl hi)
      (fun s v => rfl)
  · exact hs 2 (fun v => v.StatusType) rfl
      (by
        intro i j v hi
        rcases i with _ | _ | _ | _ | _ | _ | _ | _ | _ | i <;>
          first | rfl | exact absurd rfl hi)
      (fun s v => rfl)
  · exact hs 3 (fun v => v.DepartmentId) rfl
      (by
        intro i j v hi
        rcases i with _ | _ | _ | _ | _ | _ | _ | _ | _ | i <;>
          first | rfl | exact absurd rfl hi)
      (fun s v => rfl)
  · exact hs 5 (fun v => v.Id) rfl
      (by
        intro i j v hi
        rcases i with _ | _ | _ | _ | _ | _ | _ | _ | _ | i <;>
          first | rfl | exact absurd rfl hi)
      (fun s v => rfl)
  · exact hs 6 (fun v => v.AssigneeId) rfl
      (by
        intro i j v hi
        rcases i with _ | _ | _ | _ | _ | _ | _ | _ | _ | i <;>
          first | rfl | exact absurd rfl hi)
      (fun s v => rfl)
  · exact hs 7 (fun v => v.Status) rfl
      (by
        intro i j v hi
        rcases i with _ | _ | _ | _ | _ | _ | _ | _ | _ | i <;>
          first | rfl | exact absurd rfl hi)
      (fun s v => rfl)
  · exact hs 8 (fun v => v.ErrorMsg) rfl
      (by
        intro i j v hi
        rcases i with _ | _ | _ | _ | _ | _ | _ | _ | _ | i <;>
          first | rfl | exact absurd rfl hi)
      (fun s v => rfl)

theorem guardedDecode_fitting (body : String) (ms : List (String × Json))
    (hparse : parseJSON body = some (.obj ms))
    (htyped : Typed UpdateTicketResponse.names UpdateTicketResponse.fieldShape ms) :
    guardedDecode UpdateTicketResponse.decode {} (.ok body)
      = .returned (UpdateTicketResponse.mirror ms) none := by
  have hne : body ≠ "" := by
    intro h
    rw [h] at hparse
    cases hparse
  unfold guardedDecode Unmarshal
  simp only [hne, ne_eq, not_false_eq_true, if_true, hparse,
    decode_fitting_UpdateTicketResponse ms htyped, Option.map_none']


theorem lastField_none (names : List String) (i : Nat) (ms : List (String × Json))
    (h : ∀ m ∈ ms, fieldIndex names m.1 ≠ some i) : lastField names i ms = none := by
  cases hl : lastField names i ms with
  | none => rfl
  | some x =>
    obtain ⟨k, hk, hi⟩ := lastField_mem names i ms x hl
    exact absurd hi (h (k, x) hk)

/-- C7, as the code has it: when the transport succeeded and the body is a JSON
object in which every member whose key selects a field of UpdateTicketResponse
(exactly, or else case-insensitively) holds a value of the type of the field (a
boolean for `isDeleted`, a string for the eight others), UpdateTicketStatus,
UpdateTicketAgent and UpdateTicketMove return a nil error and a result whose
fields mirror the body: each field holds the value of the last member selecting
it and is zero when there is none.  So ErrorMsg is the value of the last
`message` member and is empty when no key selects `message`, and DepartmentId
mirrors `departmentId`. -/
theorem update_result_mirrors_body (env : Env) (authtoken orgID ticketID : String)
    (status : GoString) (ticket : UpdateTicketDetails) (body : String)
    (ms : List (String × Json))
    (hparse : parseJSON body = some (.obj ms))
    (htyped : Typed UpdateTicketResponse.names UpdateTicketResponse.fieldShape ms) :
    (Answered env (UpdateTicketStatus env authtoken orgID ticketID status) body →
      (UpdateTicketStatus env authtoken orgID ticketID status).result
        = .returned (UpdateTicketResponse.mirror ms) none) ∧
    (Answered env (UpdateTicketAgent env authtoken orgID ticket) body →
      (UpdateTicketAgent env authtoken orgID ticket).result
        = .returned (UpdateTicketResponse.mirror ms) none) ∧
    (Answered env (UpdateTicketMove env authtoken orgID ticket) body →
      (UpdateTicketMove env authtoken orgID ticket).result
        = .returned (UpdateTicketResponse.mirror ms) none) ∧
    fieldIndex UpdateTicketResponse.names "message" = some 8 ∧
    fieldIndex UpdateTicketResponse.names "departmentId" = some 3 ∧
    (UpdateTicketResponse.mirror ms).ErrorMsg
      = stringOr "" (lastField UpdateTicketResponse.names 8 ms) ∧
    (UpdateTicketResponse.mirror ms).DepartmentId
      = stringOr "" (lastField UpdateTicketResponse.names 3 ms) ∧
    ((∀ m ∈ ms, fieldIndex UpdateTicketResponse.names m.1 ≠ some 8) →
      (UpdateTicketResponse.mirror ms).ErrorMsg = "") := by
  refine ⟨?_, ?_, ?_, by decide, by decide, rfl, rfl, ?_⟩
  · intro h
    rw [UpdateTicketStatus_answered env authtoken orgID ticketID status body h]
    exact guardedDecode_fitting body ms hparse htyped
  · intro h
    rw [UpdateTicketAgent_answered env authtoken orgID ticket body h]
    exact guardedDecode_fitting body ms hparse htyped
  · intro h
    rw [UpdateTicketMove_answered env authtoken orgID ticket body h]
    exact guardedDecode_fitting body ms hparse htyped
  · intro h
    show stringOr "" (lastField UpdateTicketResponse.names 8 ms) = ""
    rw [lastField_none _ _ _ h]
    rfl

/-- C7 on the body `{"ticketNumber":"100","departmentId":"5"}`: the move
returns a nil error, an empty ErrorMsg and DepartmentId "5". -/
theorem update_result_mirrors_body_witness :
    (UpdateTicketMove (answering "\x7b\"ticketNumber\":\"100\",\"departmentId\":\"5\"\x7d")
        "tok" "org" ⟨"77", "5", ""⟩).result
      = .returned { TicketNumber := "100", DepartmentId := "5", ErrorMsg := "" } none :=
  ((update_result_mirrors_body
      (answering "\x7b\"ticketNumber\":\"100\",\"departmentId\":\"5\"\x7d")
      "tok" "org" "77" "Closed" ⟨"77", "5", ""⟩
      "\x7b\"ticketNumber\":\"100\",\"departmentId\":\"5\"\x7d"
      [("ticketNumber", .str "100"), ("departmentId", .str "5")]
      (by rfl) (Typed.of_check (by decide))).2.2.1
    (answering_answered _ _ (by decide))).trans (by rfl)

/-- C7 fails as stated: in the body `{"ticketNumber":"100","isDeleted":"false"}`
every recognised field is a string, and the three updates return a non-nil
error, because `isDeleted` is a boolean field. -/
theorem UpdateTicketMove_string_isDeleted_error :
    parseJSON "\x7b\"ticketNumber\":\"100\",\"isDeleted\":\"false\"\x7d"
      = some (.obj [("ticketNumber", .str "100"), ("isDeleted", .str "false")]) ∧
    Answered (answering "\x7b\"ticketNumber\":\"100\",\"isDeleted\":\"false\"\x7d")
      (UpdateTicketMove (answering "\x7b\"ticketNumber\":\"100\",\"isDeleted\":\"false\"\x7d")
        "tok" "org" ⟨"77", "5", ""⟩)
      "\x7b\"ticketNumber\":\"100\",\"isDeleted\":\"false\"\x7d" ∧
    (UpdateTicketMove (answering "\x7b\"ticketNumber\":\"100\",\"isDeleted\":\"false\"\x7d")
        "tok" "org" ⟨"77", "5", ""⟩).result
      = .returned { TicketNumber := "100" } (some (.jsonFailed (.type ⟨"string"⟩))) ∧
    (UpdateTicketStatus (answering "\x7b\"ticketNumber\":\"100\",\"isDeleted\":\"false\"\x7d")
        "tok" "org" "77" "Closed").result
      = .returned { TicketNumber := "100" } (some (.jsonFailed (.type ⟨"string"⟩))) ∧
    (UpdateTicketAgent (answering "\x7b\"ticketNumber\":\"100\",\"isDeleted\":\"false\"\x7d")
        "tok" "org" ⟨"77", "5", ""⟩).result
      = .returned { TicketNumber := "100" } (some (.jsonFailed (.type ⟨"string"⟩))) :=
  ⟨by rfl, answering_answered _ _ (by decide), by rfl, by rfl, by rfl⟩

/-! ## C9: bodies that do not fit -/

theorem position_lt (x : String) : ∀ (names : List String) (i : Nat),
    position x names = some i → i < names.length
  | [], _, h => by simp [position] at h
  | n :: ns, i, h => by
    unfold position at h
    split at h
    · cases h; simp
    · cases hp : position x ns with
      | none => simp [hp] at h
      | some k =>
        simp only [hp, Option.map_some', Option.some.injEq] at h
        subst h
        have := position_lt x ns k hp
        simp only [List.length_cons]
        omega

theorem fieldIndex_lt (names : List String) (key : String) (i : Nat)
    (h : fieldIndex names key = some i) : i < names.length := by
  unfold fieldIndex at h
  split at h
  · rename_i k hk
    cases h
    exact position_lt _ _ _ hk
  · have := position_lt _ _ _ h
    simpa using this

theorem saveError_ne_none_left (a b : Saved) (h : a ≠ none) : saveError a b ≠ none := by
  cases a with
  | none => exact absurd rfl h
  | some e => simp [saveError]

theorem saveError_ne_none_right (a b : Saved) (h : b ≠ none) : saveError a b ≠ none := by
  cases a with
  | none => simpa [saveError] using h
  | some e => simp [saveError]

theorem sound_string : Sound .string decodeString := by
  intro j v h
  cases j <;> simp [violates, decodeString] at h ⊢

theorem sound_int : Sound .int decodeInt := by
  intro j v h
  cases j <;> simp [violates, decodeInt] at h ⊢

theorem sound_bool : Sound .bool decodeBool := by
  intro j v h
  cases j <;> simp [violates, decodeBool] at h ⊢

theorem decodeElems_error {α : Type} (shape : Shape) (elem : Decoder α) (zero : α)
    (hs : Sound shape elem) :
    ∀ (xs : List Json) (old : List α), xs.any (violates shape) = true →
      (decodeElems elem zero xs old).2 ≠ none
  | [], _, h => by simp at h
  | x :: xs, old, h => by
    simp only [List.any_cons, Bool.or_eq_true] at h
    unfold decodeElems
    rcases h with h | h
    · exact saveError_ne_none_left _ _ (hs x _ h)
    · exact saveError_ne_none_right _ _ (decodeElems_error shape elem zero hs xs _ h)

theorem sound_slice {α : Type} (shape : Shape) (elem : Decoder α) (zero : α)
    (hs : Sound shape elem) : Sound (.slice shape) (decodeSlice elem zero) := by
  intro j v h
  cases j with
  | arr xs =>
    simp only [violates] at h
    exact decodeElems_error shape elem zero hs xs v h
  | _ => simp [violates, decodeSlice] at h ⊢

theorem decodeMembers_error {α : Type} (names : List String) (field : Nat → Shape)
    (set : Nat → Decoder α) (hs : ∀ i, i < names.length → Sound (field i) (set i)) :
    ∀ (ms : List (String × Json)) (v : α),
      (ms.any fun m =>
        match fieldIndex names m.1 with
        | some i => violates (field i) m.2
        | none => false) = true →
      (decodeMembers names set ms v).2 ≠ none
  | [], _, h => by simp at h
  | (k, j) :: ms, v, h => by
    simp only [List.any_cons, Bool.or_eq_true] at h
    unfold decodeMembers
    cases hi : fieldIndex names k with
    | none =>
      simp only [hi] at h ⊢
      rcases h with h | h
      · cases h
      · exact decodeMembers_error names field set hs ms v h
    | some i =>
      simp only [hi] at h ⊢
      rcases h with h | h
      · exact saveError_ne_none_left _ _ (hs i (fieldIndex_lt _ _ _ hi) j v h)
      · exact saveError_ne_none_right _ _ (decodeMembers_error names field set hs ms _ h)

theorem sound_struct {α : Type} (names : List String) (field : Nat → Shape)
    (set : Nat → Decoder α) (hs : ∀ i, i < names.length → Sound (field i) (set i)) :
    Sound (.struct names field) (decodeStruct names set) := by
  intro j v h
  cases j with
  | obj ms =>
    simp only [violates] at h
    exact decodeMembers_error names field set hs ms v h
  | _ => simp [violates, decodeStruct] at h ⊢

/-- Decoding into one field of a struct reports what the decoder of the field
reports. -/
theorem sound_field {α β : Type} (shape : Shape) (dec : Decoder β) (get : α → β)
    (put : α → β → α) (hs : Sound shape dec) :
    Sound shape (fun j v => (put v (dec j (get v)).1, (dec j (get v)).2)) :=
  fun j v h => hs j (get v) h

theorem sound_OAuthToken : Sound OAuthToken.shape OAuthToken.decode := by
  refine sound_struct _ _ _ ?_
  intro i hi
  simp only [OAuthToken.names, List.length_cons, List.length_nil] at hi
  interval_cases i
  · exact sound_field .string decodeString (fun (v : OAuthToken) => v.Accesstoken)
      (fun v x => { v with Accesstoken := x }) sound_string
  · exact sound_field .string decodeString (fun (v : OAuthToken) => v.Tokentype)
      (fun v x => { v with Tokentype := x }) sound_string
  · exact sound_field .int decodeInt (fun (v : OAuthToken) => v.Expiresin)
      (fun v x => { v with Expiresin := x }) sound_int


theorem sound_OrganizationData :
    Sound (.struct ["id"] fun _ => .int) OrganizationData.decode := by
  refine sound_struct _ _ _ ?_
  intro i hi
  simp only [List.length_cons, List.length_nil] at hi
  interval_cases i
  exact fun j v h => sound_int j _ h

theorem sound_Organization : Sound Organization.shape Organization.decode := by
  refine sound_struct _ _ _ ?_
  intro i hi
  simp only [List.length_cons, List.length_nil] at hi
  interval_cases i
  exact fun j v h => sound_slice _ _ _ sound_OrganizationData j _ h

theorem sound_DepartmentsData :
    Sound (.struct DepartmentsData.names DepartmentsData.fieldShape)
      DepartmentsData.decode := by
  refine sound_struct _ _ _ ?_
  intro i hi
  simp only [DepartmentsData.names, List.length_cons, List.length_nil] at hi
  interval_cases i <;>
    first
    | exact fun j v h => sound_string j _ h
    | exact fun j v h => sound_bool j _ h

theorem sound_Departments : Sound Departments.shape Departments.decode := by
  refine sound_struct _ _ _ ?_
  intro i hi
  simp only [List.length_cons, List.length_nil] at hi
  interval_cases i
  exact fun j v h => sound_slice _ _ _ sound_DepartmentsData j _ h

theorem sound_AgentsData :
    Sound (.struct AgentsData.names AgentsData.fieldShape) AgentsData.decode := by
  refine sound_struct _ _ _ ?_
  intro i hi
  simp only [AgentsData.names, List.length_cons, List.length_nil] at hi
  interval_cases i <;>
    first
    | exact fun j v h => sound_string j _ h
    | exact fun j v h => sound_slice _ _ _ sound_string j _ h

theorem sound_Agents : Sound Agents.shape Agents.decode := by
  refine sound_struct _ _ _ ?_
  intro i hi
  simp only [List.length_cons, List.length_nil] at hi
  interval_cases i
  exact fun j v h => sound_slice _ _ _ sound_AgentsData j _ h

theorem sound_UpdateTicketResponse :
    Sound UpdateTicketResponse.shape UpdateTicketResponse.decode := by
  refine sound_struct _ _ _ ?_
  intro i hi
  simp only [UpdateTicketResponse.names, List.length_cons, List.length_nil] at hi
  interval_cases i <;>
    first
    | exact fun j v h => sound_string j _ h
    | exact fun j v h => sound_bool j _ h

theorem sound_TicketAssignee :
    Sound (.struct ["firstName", "lastName"] fun _ => .string) TicketAssignee.decode := by
  refine sound_struct _ _ _ ?_
  intro i hi
  simp only [List.length_cons, List.length_nil] at hi
  interval_cases i <;> exact fun j v h => sound_string j _ h

theorem sound_TicketCf :
    Sound (.struct ["cf_reason", "cf_reminderdate"] fun _ => .string) TicketCf.decode := by
  refine sound_struct _ _ _ ?_
  intro i hi
  simp only [List.length_cons, List.length_nil] at hi
  interval_cases i <;> exact fun j v h => sound_string j _ h

theorem sound_TicketDetailsResponse :
    Sound TicketDetailsResponse.shape TicketDetailsResponse.decode := by
  refine sound_struct _ _ _ ?_
  intro i hi
  simp only [TicketDetailsResponse.names, List.length_cons, List.length_nil] at hi
  interval_cases i <;>
    first
    | exact fun j v h => sound_string j _ h
    | exact fun j v h => sound_bool j _ h
    | exact fun j v h => sound_TicketAssignee j _ h
    | exact fun j v h => sound_TicketCf j _ h

theorem Unmarshal_misshapen {α : Type} (shape : Shape) (dec : Decoder α) (hs : Sound shape dec)
    (body : String) (v : α) (h : Misshapen shape body) :
    ∃ v1 err, Unmarshal dec body v = (v1, some err) := by
  unfold Unmarshal
  rcases h with h | ⟨j, hj, hv⟩
  · rw [h]; exact ⟨_, _, rfl⟩
  · rw [hj]
    have := hs j v hv
    cases hd : (dec j v).2 with
    | none => exact absurd hd this
    | some e => exact ⟨(dec j v).1, .type e, by simp [hd]⟩

theorem guardedDecode_misshapen {α : Type} (shape : Shape) (dec : Decoder α)
    (hs : Sound shape dec) (body : String) (v : α) (hne : body ≠ "")
    (h : Misshapen shape body) :
    (guardedDecode dec v (.ok body)).failed = true := by
  obtain ⟨v1, err, hu⟩ := Unmarshal_misshapen shape dec hs body v h
  simp [guardedDecode, hne, hu, Result.failed]

/-- C9, as the code has it: after a transport call that succeeded with a
non-empty body that is not valid JSON, or is JSON that violates the shape the
operation expects (a top-level value that is neither an object nor `null`,
or a recognised key, at any depth, holding a value other than `null` of the
wrong JSON type), each of the eight operations returns a non-nil error. -/
theorem misshapen_body_is_error (env : Env) (params : Params)
    (authtoken orgID ticketID : String) (status : GoString) (f limit emailID : String)
    (ticket : UpdateTicketDetails)
    (body : String) (hne : body ≠ "") :
    (Answered env (GetOAuthToken env params) body → Misshapen OAuthToken.shape body →
      (GetOAuthToken env params).result.failed = true) ∧
    (Answered env (GetOrganization env authtoken) body → Misshapen Organization.shape body →
      (GetOrganization env authtoken).result.failed = true) ∧
    (Answered env (GetDepartments env authtoken) body → Misshapen Departments.shape body →
      (GetDepartments env authtoken).result.failed = true) ∧
    (Answered env (GetAgents env authtoken f limit emailID) body →
      Misshapen Agents.shape body →
      (GetAgents env authtoken f limit emailID).result.failed = true) ∧
    (Answered env (UpdateTicketStatus env authtoken orgID ticketID status) body →
      Misshapen UpdateTicketResponse.shape body →
      (UpdateTicketStatus env authtoken orgID ticketID status).result.failed = true) ∧
    (Answered env (UpdateTicketAgent env authtoken orgID ticket) body →
      Misshapen UpdateTicketResponse.shape body →
      (UpdateTicketAgent env authtoken orgID ticket).result.failed = true) ∧
    (Answered env (UpdateTicketMove env authtoken orgID ticket) body →
      Misshapen UpdateTicketResponse.shape body →
      (UpdateTicketMove env authtoken orgID ticket).result.failed = true) ∧
    (Answered env (GetTicketDetails env authtoken orgID ticketID) body →
      Misshapen TicketDetailsResponse.shape body →
      (GetTicketDetails env authtoken orgID ticketID).result.failed = true) := by
  refine ⟨?_, ?_, ?_, ?_, ?_, ?_, ?_, ?_⟩
  · intro h hm
    obtain ⟨v1, err, hu⟩ := Unmarshal_misshapen _ _ sound_OAuthToken body {} hm
    rw [GetOAuthToken_answered env params body h, tokenResult, hu]
    rfl
  · intro h hm
    obtain ⟨v1, err, hu⟩ := Unmarshal_misshapen _ _ sound_Organization body {} hm
    rw [GetOrganization_answered env authtoken body h, organizationResult, hu]
    rfl
  · intro h hm
    rw [GetDepartments_answered env authtoken body h]
    exact guardedDecode_misshapen _ _ sound_Departments body _ hne hm
  · intro h hm
    rw [GetAgents_answered env authtoken f limit emailID body h]
    exact guardedDecode_misshapen _ _ sound_Agents body _ hne hm
  · intro h hm
    rw [UpdateTicketStatus_answered env authtoken orgID ticketID status body h]
    exact guardedDecode_misshapen _ _ sound_UpdateTicketResponse body _ hne hm
  · intro h hm
    rw [UpdateTicketAgent_answered env authtoken orgID ticket body h]
    exact guardedDecode_misshapen _ _ sound_UpdateTicketResponse body _ hne hm
  · intro h hm
    rw [UpdateTicketMove_answered env authtoken orgID ticket body h]
    exact guardedDecode_misshapen _ _ sound_UpdateTicketResponse body _ hne hm
  · intro h hm
    rw [GetTicketDetails_answered env authtoken orgID ticketID body h]
    exact guardedDecode_misshapen _ _ sound_TicketDetailsResponse body _ hne hm

/-- C9 on two answers: a body cut off in the middle for GetOAuthToken, and a
department whose `isEnabled` is a string for GetDepartments; both calls return a
non-nil error. -/
theorem misshapen_body_is_error_witness :
    (GetOAuthToken (answering "\x7b\"access_token\":") {}).result.failed = true ∧
    (GetDepartments (answering "\x7b\"data\":[\x7b\"isEnabled\":\"yes\"\x7d]\x7d")
      "tok").result.failed = true :=
  ⟨(misshapen_body_is_error (answering "\x7b\"access_token\":") {} "tok" "org" "77" "Closed"
      "" "" "" ⟨"77", "5", ""⟩ "\x7b\"access_token\":" (by decide)).1
      (answering_answered _ _ (by decide)) (Or.inl (by rfl)),
   (misshapen_body_is_error (answering "\x7b\"data\":[\x7b\"isEnabled\":\"yes\"\x7d]\x7d") {}
      "tok" "org" "77" "Closed" "" "" "" ⟨"77", "5", ""⟩
      "\x7b\"data\":[\x7b\"isEnabled\":\"yes\"\x7d]\x7d" (by decide)).2.2.1
      (answering_answered _ _ (by decide))
      (Or.inr ⟨.obj [("data", .arr [.obj [("isEnabled", .str "yes")]])], by rfl, by
        simp [violates, Departments.shape, DepartmentsData.fieldShape]
        decide⟩)⟩

/-- C9 fails as stated: in the body `{"access_token":null}` the recognised key
`access_token` holds `null`, not a string, and GetOAuthToken reports success
with an empty token and a nil error. -/
theorem GetOAuthToken_null_token_success :
    parseJSON "\x7b\"access_token\":null\x7d" = some (.obj [("access_token", .null)]) ∧
    Answered (answering "\x7b\"access_token\":null\x7d")
      (GetOAuthToken (answering "\x7b\"access_token\":null\x7d") {})
      "\x7b\"access_token\":null\x7d" ∧
    (GetOAuthToken (answering "\x7b\"access_token\":null\x7d") {}).result = .returned "" none ∧
    violates OAuthToken.shape (.obj [("access_token", .null)]) = false ∧
    (GetOAuthToken (answering "\x7b\"access_token\":null\x7d") {}).result.failed = false :=
  ⟨by rfl, answering_answered _ _ (by decide), by rfl, by
    simp only [violates, OAuthToken.shape, List.any_cons, List.any_nil, Bool.or_false]
    split <;> rfl, by rfl⟩

/-! ## C10: the token request that cannot be constructed -/

/-- C10, what the code does: when `http.NewRequest` fails on the URL
`params.AthURL + params.OauthGenerateTokenRequestSlug` (a control byte before
the fragment, or any other rejection by `url.Parse`), GetOAuthToken sends
nothing and panics on `reqs.Header.Add`; it does not reach an error return. -/
theorem GetOAuthToken_nil_request_panics (env : Env) (params : Params)
    (h : stringContainsCTLByte
          (beforeFragment (params.AthURL ++ params.OauthGenerateTokenRequestSlug)) = true ∨
        env.accepts (params.AthURL ++ params.OauthGenerateTokenRequestSlug) = false) :
    GetOAuthToken env params = ⟨[], .panic⟩ := by
  unfold GetOAuthToken
  rcases h with h | h
  · simp only [NewRequest, h, if_true]
  · simp only [NewRequest, h, Bool.false_eq_true, if_false, ite_self]

/-- C10 at a base URL that ends in a newline: the call panics. -/
theorem GetOAuthToken_nil_request_panics_witness :
    GetOAuthToken (answering "\x7b\"access_token\":\"abc\"\x7d")
        { AthURL := "https://accounts.zoho.com\n",
          OauthGenerateTokenRequestSlug := "/oauth/v2/token" }
      = ⟨[], .panic⟩ :=
  GetOAuthToken_nil_request_panics _ _ (Or.inl (by decide))

end Zoho
